import Mathlib

/-!
Verification of the Density_bining repository's numerical core against its
specification.  The Python arrays are embedded shallowly: numeric arrays
become functions `Nat → ℚ` (or `List ℚ`) with exact rational arithmetic in
place of floating point, masked-array validity bits become `Bool` functions,
and the numpy primitives used by the code (`argmax`, `argmin`, `arange`,
`interp`, boolean-array `argmax`) are modelled as executable Lean functions
with numpy's documented first-occurrence / ceiling-length / piecewise-linear
semantics on sorted abscissae.
-/

namespace DensityBining

/-- numpy `argmax` over a 1-D array: index of the first occurrence of the
maximum value; 0 on the empty array. -/
def argmaxIdx : List ℚ → Nat
  | [] => 0
  | [_] => 0
  | x :: y :: xs =>
    let j := argmaxIdx (y :: xs)
    if x < (y :: xs).getD j 0 then j + 1 else 0

/-- numpy `argmin` over a 1-D array: index of the first occurrence of the
minimum value; 0 on the empty array. -/
def argminIdx : List ℚ → Nat
  | [] => 0
  | [_] => 0
  | x :: y :: xs =>
    let j := argminIdx (y :: xs)
    if (y :: xs).getD j 0 < x then j + 1 else 0

theorem argmaxIdx_lt_length : ∀ (l : List ℚ), l ≠ [] → argmaxIdx l < l.length
  | [], h => absurd rfl h
  | [_], _ => by simp [argmaxIdx]
  | x :: y :: xs, _ => by
    have ih := argmaxIdx_lt_length (y :: xs) (by simp)
    simp only [argmaxIdx]
    split
    · simpa using Nat.succ_lt_succ ih
    · simp

theorem argminIdx_lt_length : ∀ (l : List ℚ), l ≠ [] → argminIdx l < l.length
  | [], h => absurd rfl h
  | [_], _ => by simp [argminIdx]
  | x :: y :: xs, _ => by
    have ih := argminIdx_lt_length (y :: xs) (by simp)
    simp only [argminIdx]
    split
    · simpa using Nat.succ_lt_succ ih
    · simp

theorem argmaxIdx_le : ∀ (l : List ℚ) (i : Nat), i < l.length →
    l.getD i 0 ≤ l.getD (argmaxIdx l) 0
  | [], i, h => by simp at h
  | [a], i, h => by
    have : i = 0 := by simpa using h
    subst this; simp [argmaxIdx]
  | x :: y :: xs, i, h => by
    have ihle := fun i hi => argmaxIdx_le (y :: xs) i hi
    simp only [argmaxIdx]
    split
    · -- head is smaller than tail max: argmax = j+1
      rename_i hlt
      match i with
      | 0 => simpa using le_of_lt hlt
      | i + 1 =>
        have hi : i < (y :: xs).length := by simpa using h
        simpa using ihle i hi
    · -- head attains the max: argmax = 0
      rename_i hge
      push_neg at hge
      match i with
      | 0 => simp
      | i + 1 =>
        have hi : i < (y :: xs).length := by simpa using h
        have h1 : (y :: xs).getD i 0 ≤ (y :: xs).getD (argmaxIdx (y :: xs)) 0 :=
          ihle i hi
        simpa using le_trans h1 hge

theorem argmaxIdx_first : ∀ (l : List ℚ) (i : Nat), i < argmaxIdx l →
    l.getD i 0 < l.getD (argmaxIdx l) 0
  | [], i, h => by simp [argmaxIdx] at h
  | [a], i, h => by simp [argmaxIdx] at h
  | x :: y :: xs, i, h => by
    have ihf := fun i hi => argmaxIdx_first (y :: xs) i hi
    simp only [argmaxIdx] at h ⊢
    split at h
    · rename_i hlt
      simp only [if_pos hlt]
      match i with
      | 0 => simpa using hlt
      | i + 1 =>
        have hi : i < argmaxIdx (y :: xs) := by omega
        simpa using ihf i hi
    · omega

/-- The first-occurrence maximum index is unique, so `argmaxIdx` is pinned
down by the three properties above. -/
theorem argmaxIdx_eq (l : List ℚ) (j : Nat) (hj : j < l.length)
    (hle : ∀ i, i < l.length → l.getD i 0 ≤ l.getD j 0)
    (hfirst : ∀ i, i < j → l.getD i 0 < l.getD j 0) :
    argmaxIdx l = j := by
  have hne : l ≠ [] := by
    intro h; subst h; simp at hj
  have ha := argmaxIdx_lt_length l hne
  rcases Nat.lt_trichotomy (argmaxIdx l) j with h | h | h
  · have h1 := hfirst _ h
    have h2 := hle (argmaxIdx l) ha
    have h3 := argmaxIdx_le l j hj
    exact absurd h3 (by linarith)
  · exact h
  · have h1 := argmaxIdx_first l j h
    have h2 := hle (argmaxIdx l) ha
    exact absurd h2 (by linarith)

theorem getD_range_map (f : Nat → ℚ) (n i : Nat) :
    ((List.range n).map f).getD i 0 = if i < n then f i else 0 := by
  by_cases h : i < n
  · rw [List.getD_eq_getElem?_getD, List.getElem?_map, List.getElem?_range h]
    simp [h]
  · rw [List.getD_eq_getElem?_getD, List.getElem?_map,
      List.getElem?_eq_none (by simpa using Nat.le_of_not_lt h)]
    simp [h]

/-!
## Emergence Detector

`findToE` from `matplotlib/densit_matplot_lib.py`:

```
timN = signal.shape[0]
toe_wrk = np.ma.ones(signal.shape)*1.
signaltile = np.reshape(np.tile(noise,timN),signal.shape)
toe_idx = np.argwhere(abs(signal) >= mult*signaltile)
toe_wrk[toe_idx[:,0],toe_idx[:,1]] = 0.
toe = timN-np.flipud(toe_wrk).argmax(axis=0)
```

All operations act column-wise over the space axis, so the model is per
spatial point: `signal : Nat → ℚ` is one column of the `[time, space]`
array.
-/

/-- One entry of the helper marker array `toe_wrk`: 1, zeroed where the
exceedance `|signal| >= mult*noise` holds. -/
def toeWrk (signal : Nat → ℚ) (noise mult : ℚ) (t : Nat) : ℚ :=
  if mult * noise ≤ |signal t| then 0 else 1

/-- `findToE` for one spatial point: `timN - argmax(flipud(toe_wrk))`. -/
def findToE (timN : Nat) (signal : Nat → ℚ) (noise mult : ℚ) : Nat :=
  timN - argmaxIdx ((List.range timN).map (fun j => toeWrk signal noise mult (timN - 1 - j)))

theorem findToE_list_length (timN : Nat) (signal : Nat → ℚ) (noise mult : ℚ) :
    ((List.range timN).map (fun j => toeWrk signal noise mult (timN - 1 - j))).length
      = timN := by
  simp

/-- C10: for `timN ≥ 1` the result is always in `[1, timN]`; in particular 0
is never returned. -/
theorem findToE_in_range (timN : Nat) (signal : Nat → ℚ) (noise mult : ℚ)
    (h : 1 ≤ timN) :
    1 ≤ findToE timN signal noise mult ∧ findToE timN signal noise mult ≤ timN := by
  have hne : ((List.range timN).map (fun j => toeWrk signal noise mult (timN - 1 - j))) ≠ [] := by
    intro hcon
    have := congrArg List.length hcon
    simp at this
    omega
  have hlt := argmaxIdx_lt_length _ hne
  rw [findToE_list_length] at hlt
  unfold findToE
  omega

theorem findToE_in_range_witness :
    1 ≤ (1:Nat) ∧
      (1 ≤ findToE 1 (fun _ => (0:ℚ)) 1 1 ∧ findToE 1 (fun _ => (0:ℚ)) 1 1 ≤ 1) :=
  ⟨le_refl 1, findToE_in_range 1 (fun _ => (0:ℚ)) 1 1 (le_refl 1)⟩

/-- C1 counterexample: for a signal exceeding the threshold at every one of
the 2 time steps, `findToE` returns `timN = 2`, not 0 as the claim states
(the marker array is all zeros, so the reversed `argmax` is 0 and the result
is `timN - 0`). -/
theorem findToE_always_exceeding_returns_timN :
    (∀ t, t < 2 → (1:ℚ) * 1 ≤ |(10:ℚ)|) ∧
      findToE 2 (fun _ => (10:ℚ)) 1 1 = 2 := by
  constructor
  · intro t _
    norm_num
  · norm_num [findToE, List.range_succ, argmaxIdx, toeWrk]

/-- C1 amended: for a step signal that is strictly below threshold before
time `k` and at/above it from `k` to the end, the returned emergence index is
`k` when `1 ≤ k` (this covers the never-exceeding case `k = timN`), while the
always-exceeding case `k = 0` returns `timN` (not 0). -/
theorem findToE_step (timN k : Nat) (signal : Nat → ℚ) (noise mult : ℚ)
    (hk : k ≤ timN)
    (hbelow : ∀ t, t < k → |signal t| < mult * noise)
    (habove : ∀ t, k ≤ t → t < timN → mult * noise ≤ |signal t|) :
    findToE timN signal noise mult = if k = 0 then timN else k := by
  rcases Nat.eq_zero_or_pos timN with h0 | hpos
  · subst h0
    have : k = 0 := Nat.le_zero.mp hk
    subst this
    simp [findToE, argmaxIdx]
  set l := (List.range timN).map (fun j => toeWrk signal noise mult (timN - 1 - j)) with hl
  have hlen : l.length = timN := findToE_list_length timN signal noise mult
  have hval : ∀ j, j < timN →
      l.getD j 0 = if timN - 1 - j < k then 1 else 0 := by
    intro j hj
    rw [hl, getD_range_map, if_pos hj]
    unfold toeWrk
    by_cases hc : timN - 1 - j < k
    · rw [if_pos hc, if_neg]
      exact not_le.mpr (hbelow _ hc)
    · rw [if_neg hc, if_pos]
      exact habove _ (Nat.le_of_not_lt hc) (by omega)
  rcases Nat.eq_zero_or_pos k with hk0 | hkpos
  · -- always exceeding: the marker list is all zeros, argmax = 0
    subst hk0
    have hmax : argmaxIdx l = 0 := by
      refine argmaxIdx_eq l 0 (by omega) ?_ (by omega)
      intro i hi
      rw [hlen] at hi
      rw [hval i hi, hval 0 hpos]
      simp
    unfold findToE
    rw [← hl, hmax]
    simp
  · -- step at k ≥ 1: first 1 in the reversed marker sits at timN - k
    have hmax : argmaxIdx l = timN - k := by
      refine argmaxIdx_eq l (timN - k) (by omega) ?_ ?_
      · intro i hi
        rw [hlen] at hi
        rw [hval i hi, hval (timN - k) (by omega)]
        have ht : timN - 1 - (timN - k) < k := by omega
        rw [if_pos ht]
        split <;> norm_num
      · intro i hi
        rw [hval i (by omega), hval (timN - k) (by omega)]
        have ht : timN - 1 - (timN - k) < k := by omega
        have hti : ¬ timN - 1 - i < k := by omega
        rw [if_pos ht, if_neg hti]
        norm_num
    unfold findToE
    rw [← hl, hmax, if_neg (Nat.pos_iff_ne_zero.mp hkpos)]
    omega

theorem findToE_step_witness :
    (2:Nat) ≤ 3 ∧
      findToE 3 (fun t => if t < 2 then (0:ℚ) else 5) 1 2 = if (2:Nat) = 0 then 3 else 2 :=
  ⟨by norm_num,
    findToE_step 3 2 (fun t => if t < 2 then (0:ℚ) else 5) 1 2 (by norm_num)
      (by
        intro t ht
        simp only [if_pos ht]
        norm_num)
      (by
        intro t ht _
        simp only [if_neg (by omega : ¬ t < 2)]
        norm_num)⟩

/-!
## Density-Grid Builder

`rhonGrid` from `binDensity.py`:

```
s_s1 = npy.arange(rho_min, rho_int, del_s1, dtype = npy.float32)
s_s2 = npy.arange(rho_int, rho_max, del_s2, dtype = npy.float32)
s_s  = npy.concatenate([s_s1, s_s2])
N_s  = len(s_s)
```

`np.arange(start, stop, step)` has `ceil((stop-start)/step)` elements, the
`i`-th being `start + i*step`.
-/

/-- Element count of `np.arange(start, stop, step)`. -/
def arangeLen (start stop step : ℚ) : Nat := (⌈(stop - start) / step⌉).toNat

/-- `np.arange(start, stop, step)` in exact arithmetic. -/
def npArange (start stop step : ℚ) : List ℚ :=
  (List.range (arangeLen start stop step)).map (fun i : Nat => start + (i : ℚ) * step)

/-- The density grid `s_s` returned by `rhonGrid`. -/
def rhonGrid_s_s (rho_min rho_int rho_max del_s1 del_s2 : ℚ) : List ℚ :=
  npArange rho_min rho_int del_s1 ++ npArange rho_int rho_max del_s2

/-- The grid size `N_s` returned by `rhonGrid`. -/
def rhonGrid_N_s (rho_min rho_int rho_max del_s1 del_s2 : ℚ) : Nat :=
  (rhonGrid_s_s rho_min rho_int rho_max del_s1 del_s2).length

theorem mem_npArange {x start stop step : ℚ} (h : x ∈ npArange start stop step) :
    ∃ i : Nat, i < arangeLen start stop step ∧ x = start + i * step := by
  unfold npArange at h
  rcases List.mem_map.mp h with ⟨i, hi, hx⟩
  exact ⟨i, List.mem_range.mp hi, hx.symm⟩

theorem npArange_sorted (start stop step : ℚ) (hstep : 0 < step) :
    (npArange start stop step).Sorted (· < ·) := by
  unfold npArange List.Sorted
  rw [List.pairwise_map]
  exact (List.pairwise_lt_range _).imp (fun h => by
    have : (Nat.cast : Nat → ℚ) _ < _ := Nat.cast_lt.mpr h
    nlinarith)

theorem npArange_lt_stop {x start stop step : ℚ} (hstep : 0 < step)
    (h : x ∈ npArange start stop step) : x < stop := by
  rcases mem_npArange h with ⟨i, hi, hx⟩
  have hi' : (i : ℤ) < ⌈(stop - start) / step⌉ := Int.lt_toNat.mp hi
  have hq : (i : ℚ) < (stop - start) / step := by
    exact_mod_cast Int.lt_ceil.mp hi'
  have hmul : (i : ℚ) * step < stop - start := by
    rw [lt_div_iff hstep] at hq
    linarith
  rw [hx]
  linarith

theorem arangeLen_eq (start stop step : ℚ) (n : Nat)
    (h1 : (n : ℚ) - 1 < (stop - start) / step) (h2 : (stop - start) / step ≤ (n : ℚ)) :
    arangeLen start stop step = n := by
  unfold arangeLen
  have hc : ⌈(stop - start) / step⌉ = (n : ℤ) := by
    rw [Int.ceil_eq_iff]
    constructor
    · push_cast
      exact h1
    · push_cast
      exact h2
  rw [hc, Int.toNat_natCast]

theorem rhonGrid_N_s_eq (a b c d e : ℚ) :
    rhonGrid_N_s a b c d e = arangeLen a b d + arangeLen b c e := by
  simp [rhonGrid_N_s, rhonGrid_s_s, npArange]

/-- C4 counterexample: with `rho_min = 0 < rho_int = 1 < rho_max = 2` and
positive steps `0.3` and `0.5`, the grid has `⌈10/3⌉ + ⌈2⌉ = 6` levels, while
the claimed formula gives `10/3 + 2 = 16/3 ≠ 6`. -/
theorem rhonGrid_length_formula_fails :
    ((0:ℚ) < 1 ∧ (1:ℚ) < 2 ∧ (0:ℚ) < 3/10 ∧ (0:ℚ) < 1/2) ∧
      rhonGrid_N_s 0 1 2 (3/10) (1/2) = 6 ∧
      ((rhonGrid_N_s 0 1 2 (3/10) (1/2) : ℚ) ≠
        ((1:ℚ) - 0) / (3/10) + ((2:ℚ) - 1) / (1/2)) := by
  have h6 : rhonGrid_N_s 0 1 2 (3/10) (1/2) = 6 := by
    rw [rhonGrid_N_s_eq,
      arangeLen_eq 0 1 (3/10) 4 (by norm_num) (by norm_num),
      arangeLen_eq 1 2 (1/2) 2 (by norm_num) (by norm_num)]
  refine ⟨by norm_num, h6, ?_⟩
  rw [h6]
  norm_num

/-- C4 amended: the grid is always strictly increasing, and its length is the
sum of the two `arange` ceilings `⌈(rho_int−rho_min)/del_s1⌉ +
⌈(rho_max−rho_int)/del_s2⌉`; the claimed length formula
`(rho_int−rho_min)/del_s1 + (rho_max−rho_int)/del_s2` holds whenever each
step divides its sub-interval evenly, and the concrete build
`rhonGrid(19, 26, 28.5, 0.2, 0.1)` has exactly `35 + 25 = 60` levels. -/
theorem rhonGrid_sorted_and_length (rho_min rho_int rho_max del_s1 del_s2 : ℚ)
    (h1 : rho_min < rho_int) (h2 : rho_int < rho_max)
    (hd1 : 0 < del_s1) (hd2 : 0 < del_s2) :
    (rhonGrid_s_s rho_min rho_int rho_max del_s1 del_s2).Sorted (· < ·) ∧
    rhonGrid_N_s rho_min rho_int rho_max del_s1 del_s2
      = (⌈(rho_int - rho_min) / del_s1⌉ + ⌈(rho_max - rho_int) / del_s2⌉).toNat ∧
    ((∃ m : Nat, rho_int - rho_min = m * del_s1) →
      (∃ n : Nat, rho_max - rho_int = n * del_s2) →
      (rhonGrid_N_s rho_min rho_int rho_max del_s1 del_s2 : ℚ)
        = (rho_int - rho_min) / del_s1 + (rho_max - rho_int) / del_s2) ∧
    rhonGrid_N_s 19 26 (57/2) (1/5) (1/10) = 60 := by
  have hc1 : 0 < ⌈(rho_int - rho_min) / del_s1⌉ :=
    Int.ceil_pos.mpr (div_pos (by linarith) hd1)
  have hc2 : 0 < ⌈(rho_max - rho_int) / del_s2⌉ :=
    Int.ceil_pos.mpr (div_pos (by linarith) hd2)
  have h60 : rhonGrid_N_s 19 26 (57/2) (1/5) (1/10) = 60 := by
    rw [rhonGrid_N_s_eq,
      arangeLen_eq 19 26 (1/5) 35 (by norm_num) (by norm_num),
      arangeLen_eq 26 (57/2) (1/10) 25 (by norm_num) (by norm_num)]
  refine ⟨?_, ?_, ?_, h60⟩
  · unfold rhonGrid_s_s
    refine List.pairwise_append.mpr ⟨npArange_sorted _ _ _ hd1, npArange_sorted _ _ _ hd2, ?_⟩
    intro a ha b hb
    have ha' : a < rho_int := npArange_lt_stop hd1 ha
    rcases mem_npArange hb with ⟨j, _, hbj⟩
    have : (0:ℚ) ≤ (j : ℚ) * del_s2 := by positivity
    rw [hbj]
    linarith
  · unfold rhonGrid_N_s rhonGrid_s_s npArange arangeLen
    rw [List.length_append]
    simp only [List.length_map, List.length_range]
    omega
  · rintro ⟨m, hm⟩ ⟨n, hn⟩
    have hmc : ⌈(rho_int - rho_min) / del_s1⌉ = (m : ℤ) := by
      rw [hm, mul_div_assoc, div_self (ne_of_gt hd1), mul_one]
      exact_mod_cast Int.ceil_natCast m
    have hnc : ⌈(rho_max - rho_int) / del_s2⌉ = (n : ℤ) := by
      rw [hn, mul_div_assoc, div_self (ne_of_gt hd2), mul_one]
      exact_mod_cast Int.ceil_natCast n
    unfold rhonGrid_N_s rhonGrid_s_s npArange arangeLen
    rw [List.length_append]
    simp only [List.length_map, List.length_range]
    rw [hmc, hnc, Int.toNat_natCast, Int.toNat_natCast, hm, hn]
    rw [mul_div_assoc, div_self (ne_of_gt hd1), mul_one,
      mul_div_assoc, div_self (ne_of_gt hd2), mul_one]
    push_cast
    ring

theorem rhonGrid_sorted_and_length_witness :
    ((19:ℚ) < 26 ∧ (26:ℚ) < 57/2 ∧ (0:ℚ) < 1/5 ∧ (0:ℚ) < 1/10) ∧
      rhonGrid_N_s 19 26 (57/2) (1/5) (1/10) = 60 :=
  ⟨by norm_num,
    (rhonGrid_sorted_and_length 19 26 (57/2) (1/5) (1/10)
      (by norm_num) (by norm_num) (by norm_num) (by norm_num)).2.2.2⟩

/-!
## Ensemble Aggregator

`mmeAveMsk2D` from `mme_ave_msk.py`.  All masking steps act pointwise in
(time, lev) and uniformly over a (basin, latitude) column, so the model is
one such column.  The relevant source lines:

* `percent[i,...] = npy.float32(npy.equal(maskvar,0))` (valid bins of the
  reference variable `isondepth`, `iv == 0`),
* `percenta = (cdu.averager(percent,axis=0))*100.` and
  `percenta = mv.masked_less(percenta, 50)`,
* `isonVarAve.mask = percentw.mask` (the ensemble mean's final mask),
* the bowl loop: when `siglimit[ib,il] < valmask/1000.` the levels
  `0:index[0]` (first `sigmaGrd >= siglimit` index) are masked, otherwise
  "mask all points" — in the `mme` branch for `isonVarBowl`, `isonVarStd`
  and `vardiffsgSum`, in the non-`mme` branch only for `vardiffsgSum`,
* non-`mme`: `isonVarBowl = isonVarAve*1.` then after the loop
  `isonVarBowl = maskVal(isonVarBowl, valmask)` (masks data `> valmask/10`).
-/

/-- The netCDF fill value (`missing_value` / `_FillValue`) used by the
repository's data, 1.e20. -/
def valmask : ℚ := 10 ^ 20

/-- First index `j` with `i ≤ j < i + n` satisfying `p`, else `i + n`
(model of `npy.argwhere(...)` followed by taking element `[0]`). -/
def firstSatAux (p : Nat → Bool) : Nat → Nat → Nat
  | 0, i => i
  | n+1, i => if p i then i else firstSatAux p n (i+1)

/-- First index in `[0, n)` satisfying `p`, else `n`. -/
def firstSat (p : Nat → Bool) (n : Nat) : Nat := firstSatAux p n 0

theorem firstSatAux_not (p : Nat → Bool) :
    ∀ n i j, i ≤ j → j < firstSatAux p n i → p j = false := by
  intro n
  induction n with
  | zero =>
    intro i j hij hj
    unfold firstSatAux at hj
    omega
  | succ n ih =>
    intro i j hij hj
    unfold firstSatAux at hj
    by_cases hp : p i
    · rw [if_pos hp] at hj
      omega
    · rw [if_neg hp] at hj
      rcases Nat.eq_or_lt_of_le hij with h | h
      · simpa [← h] using hp
      · exact ih (i+1) j h hj

theorem firstSatAux_sat (p : Nat → Bool) :
    ∀ n i, (∃ k, i ≤ k ∧ k < i + n ∧ p k = true) →
      p (firstSatAux p n i) = true ∧ firstSatAux p n i < i + n := by
  intro n
  induction n with
  | zero =>
    rintro i ⟨k, hk1, hk2, _⟩
    omega
  | succ n ih =>
    rintro i ⟨k, hk1, hk2, hpk⟩
    unfold firstSatAux
    by_cases hp : p i
    · rw [if_pos hp]
      exact ⟨hp, by omega⟩
    · rw [if_neg hp]
      have hki : k ≠ i := by
        intro h
        rw [h] at hpk
        exact hp hpk
      have := ih (i+1) ⟨k, by omega, by omega, hpk⟩
      exact ⟨this.1, by omega⟩

theorem firstSat_not (p : Nat → Bool) (n j : Nat) (hj : j < firstSat p n) :
    p j = false :=
  firstSatAux_not p n 0 j (Nat.zero_le j) hj

theorem firstSat_sat (p : Nat → Bool) (n : Nat) (h : ∃ k, k < n ∧ p k = true) :
    p (firstSat p n) = true ∧ firstSat p n < n := by
  have := firstSatAux_sat p n 0 (by
    rcases h with ⟨k, hk, hpk⟩
    exact ⟨k, Nat.zero_le k, by omega, hpk⟩)
  simpa using this

/-- One (basin, latitude) column of the ensemble stack handled by
`mmeAveMsk2D`.  `refValid` is the per-run validity of the reference
variable `isondepth` (`iv == 0`), which drives the `percent` coverage
field applied to every variable; `valid`/`value` belong to the variable
currently being averaged; `siglimit` is the time-averaged `ptopsigma`
bowl density at this (basin, latitude), `none` when missing. -/
structure EnsColumn where
  runN : Nat
  timN : Nat
  levN : Nat
  refValid : Nat → Nat → Nat → Bool
  value : Nat → Nat → Nat → ℚ
  valid : Nat → Nat → Nat → Bool
  sigmaGrd : Nat → ℚ
  siglimit : Option ℚ

/-- Number of member runs whose reference variable is valid at bin
(t, lev): the sum of the 0/1 `percent` field over runs. -/
def validCount (col : EnsColumn) (t lev : Nat) : Nat :=
  ((List.range col.runN).filter (fun r => col.refValid r t lev)).length

/-- `percenta = (cdu.averager(percent,axis=0))*100.` -/
def percenta (col : EnsColumn) (t lev : Nat) : ℚ :=
  (validCount col t lev : ℚ) / col.runN * 100

/-- The mask of `percentw` (`mv.masked_less(percenta, 50)`): masked where
strictly fewer than 50% of members are valid. -/
def covMask (col : EnsColumn) (t lev : Nat) : Bool :=
  decide (percenta col t lev < 50)

/-- The ensemble mean's final mask: `isonVarAve.mask = percentw.mask`
replaces the whole mask, so it is exactly the coverage mask. -/
def meanMask (col : EnsColumn) (t lev : Nat) : Bool := covMask col t lev

/-- `cdu.averager(isonvar, axis=0)` on the masked member stack: the mean of
the valid members' values, the fill value when no member is valid. -/
def meanVal (col : EnsColumn) (t lev : Nat) : ℚ :=
  let vr := (List.range col.runN).filter (fun r => col.valid r t lev)
  if vr.length = 0 then valmask
  else (vr.map (fun r => col.value r t lev)).sum / vr.length

/-- The test `siglimit[ib,il] < valmask/1000.`; a masked `siglimit`
compares false. -/
def siglimitDefined (col : EnsColumn) : Bool :=
  match col.siglimit with
  | none => false
  | some s => decide (s < valmask / 1000)

/-- `index[0]` of `npy.argwhere(sigmaGrd[:] >= siglimit[ib,il])`: first
density level at or above the bowl threshold. -/
def bowlIdx (col : EnsColumn) : Nat :=
  firstSat (fun l => decide (col.siglimit.getD 0 ≤ col.sigmaGrd l)) col.levN

/-- Final mask of the sign-agreement field `vardiffsgSum` (identical in the
`mme` and non-`mme` branches): coverage mask, plus the bowl truncation when
the bowl is defined, everything masked when it is not. -/
def agreeMask (col : EnsColumn) (t lev : Nat) : Bool :=
  if siglimitDefined col then covMask col t lev || decide (lev < bowlIdx col)
  else true

/-- Final mask of the bowl-truncated variable `isonVarBowl`.  In the `mme`
branch it matches the agreement field.  In the non-`mme` branch it starts
from the mean (`isonVarAve*1.`), the undefined-bowl case leaves it
untouched, and the trailing `maskVal` masks data above `valmask/10`. -/
def bowlMask (col : EnsColumn) (mme : Bool) (t lev : Nat) : Bool :=
  if mme then
    (if siglimitDefined col then covMask col t lev || decide (lev < bowlIdx col)
     else true)
  else
    ((if siglimitDefined col then covMask col t lev || decide (lev < bowlIdx col)
      else covMask col t lev) || decide (valmask / 10 < meanVal col t lev))

/-- Final mask of the inter-model standard deviation `isonVarStd` (written
in the `mme` branch only). -/
def stdMask (col : EnsColumn) (t lev : Nat) : Bool :=
  if siglimitDefined col then covMask col t lev || decide (lev < bowlIdx col)
  else true

/-- C5: the ensemble mean is masked exactly where strictly fewer than 50%
of the member runs are valid; with 3 members, a bin valid in exactly 1
member is masked and a bin valid in 2 of 3 members is retained. -/
theorem mmeAve_fifty_percent_rule (col : EnsColumn) (t lev : Nat) :
    (meanMask col t lev = true ↔ percenta col t lev < 50) ∧
    meanMask ⟨3, 1, 1, fun r _ _ => decide (r < 1), fun _ _ _ => 1,
      fun r _ _ => decide (r < 1), fun _ => 26, some 25⟩ 0 0 = true ∧
    meanMask ⟨3, 1, 1, fun r _ _ => decide (r < 2), fun _ _ _ => 1,
      fun r _ _ => decide (r < 2), fun _ => 26, some 25⟩ 0 0 = false := by
  refine ⟨?_,
    by norm_num [meanMask, covMask, percenta, validCount, List.range_succ],
    by norm_num [meanMask, covMask, percenta, validCount, List.range_succ]⟩
  simp [meanMask, covMask]

/-- With a monotone density grid containing a level at or above the
threshold, the bowl cut index `bowlIdx` separates the levels exactly at the
threshold density. -/
theorem bowlIdx_le_iff (col : EnsColumn) (lev : Nat)
    (hmono : ∀ i j, i ≤ j → col.sigmaGrd i ≤ col.sigmaGrd j)
    (hex : ∃ l, l < col.levN ∧ col.siglimit.getD 0 ≤ col.sigmaGrd l) :
    (bowlIdx col ≤ lev ↔ col.siglimit.getD 0 ≤ col.sigmaGrd lev) := by
  constructor
  · intro h
    have hsat := firstSat_sat (fun l => decide (col.siglimit.getD 0 ≤ col.sigmaGrd l))
      col.levN (by
        rcases hex with ⟨l, hl, hsl⟩
        exact ⟨l, hl, decide_eq_true hsl⟩)
    have h1 : col.siglimit.getD 0 ≤ col.sigmaGrd (bowlIdx col) :=
      of_decide_eq_true hsat.1
    exact le_trans h1 (hmono _ _ h)
  · intro h
    by_contra hlt
    have := firstSat_not (fun l => decide (col.siglimit.getD 0 ≤ col.sigmaGrd l))
      col.levN lev (by unfold bowlIdx at hlt; omega)
    rw [decide_eq_false_iff_not] at this
    exact this h

/-- C6 counterexample: a bin with full (100%) member coverage at a density
level strictly lighter than the defined bowl threshold is still valid in the
written ensemble mean, whose final mask is the coverage mask alone
(`isonVarAve.mask = percentw.mask`); the claimed conjunction with the bowl
condition does not hold for it. -/
theorem ensemble_mean_lacks_bowl_mask :
    meanMask ⟨1, 1, 2, fun _ _ _ => true, fun _ _ _ => 1, fun _ _ _ => true,
      fun l => if l = 0 then 20 else 26, some 25⟩ 0 0 = false ∧
    siglimitDefined ⟨1, 1, 2, fun _ _ _ => true, fun _ _ _ => 1, fun _ _ _ => true,
      fun l => if l = 0 then 20 else 26, some 25⟩ = true ∧
    ((⟨1, 1, 2, fun _ _ _ => true, fun _ _ _ => 1, fun _ _ _ => true,
      fun l => if l = 0 then 20 else 26, some 25⟩ : EnsColumn).sigmaGrd 0
        < (Option.some (25:ℚ)).getD 0) := by
  refine ⟨?_, ?_, by norm_num⟩
  · norm_num [meanMask, covMask, percenta, validCount, List.range_succ]
  · norm_num [siglimitDefined, valmask]

/-- C6 amended: with a defined bowl threshold on a monotone density grid,
the sign-agreement field's validity is exactly the claimed conjunction
"at least 50% member coverage AND density at or above the bowl threshold",
and in `mme` mode the bowl-truncated and standard-deviation fields carry the
same mask; the ensemble mean, however, carries only the coverage mask and no
bowl condition. -/
theorem written_masks_conjunction (col : EnsColumn) (t lev : Nat)
    (hdef : siglimitDefined col = true)
    (hmono : ∀ i j, i ≤ j → col.sigmaGrd i ≤ col.sigmaGrd j)
    (hex : ∃ l, l < col.levN ∧ col.siglimit.getD 0 ≤ col.sigmaGrd l) :
    meanMask col t lev = covMask col t lev ∧
    (agreeMask col t lev = false ↔
      (covMask col t lev = false ∧ col.siglimit.getD 0 ≤ col.sigmaGrd lev)) ∧
    bowlMask col true t lev = agreeMask col t lev ∧
    stdMask col t lev = agreeMask col t lev := by
  refine ⟨rfl, ?_, by simp [bowlMask, agreeMask], rfl⟩
  rw [agreeMask, if_pos hdef]
  rw [← bowlIdx_le_iff col lev hmono hex]
  constructor
  · intro h
    rcases Bool.or_eq_false_iff.mp h with ⟨h1, h2⟩
    exact ⟨h1, by simpa using of_decide_eq_false h2⟩
  · rintro ⟨h1, h2⟩
    rw [h1]
    simp
    omega

theorem written_masks_conjunction_witness :
    siglimitDefined ⟨1, 1, 2, fun _ _ _ => true, fun _ _ _ => 1, fun _ _ _ => true,
      fun l => if l = 0 then 20 else 26, some 25⟩ = true ∧
    (meanMask ⟨1, 1, 2, fun _ _ _ => true, fun _ _ _ => 1, fun _ _ _ => true,
        fun l => if l = 0 then 20 else 26, some 25⟩ 0 1
      = covMask ⟨1, 1, 2, fun _ _ _ => true, fun _ _ _ => 1, fun _ _ _ => true,
        fun l => if l = 0 then 20 else 26, some 25⟩ 0 1 ∧
     (agreeMask ⟨1, 1, 2, fun _ _ _ => true, fun _ _ _ => 1, fun _ _ _ => true,
        fun l => if l = 0 then 20 else 26, some 25⟩ 0 1 = false ↔
       (covMask ⟨1, 1, 2, fun _ _ _ => true, fun _ _ _ => 1, fun _ _ _ => true,
          fun l => if l = 0 then 20 else 26, some 25⟩ 0 1 = false ∧
        (Option.some (25:ℚ)).getD 0
          ≤ (⟨1, 1, 2, fun _ _ _ => true, fun _ _ _ => 1, fun _ _ _ => true,
              fun l => if l = 0 then 20 else 26, some 25⟩ : EnsColumn).sigmaGrd 1)) ∧
     bowlMask ⟨1, 1, 2, fun _ _ _ => true, fun _ _ _ => 1, fun _ _ _ => true,
        fun l => if l = 0 then 20 else 26, some 25⟩ true 0 1
      = agreeMask ⟨1, 1, 2, fun _ _ _ => true, fun _ _ _ => 1, fun _ _ _ => true,
        fun l => if l = 0 then 20 else 26, some 25⟩ 0 1 ∧
     stdMask ⟨1, 1, 2, fun _ _ _ => true, fun _ _ _ => 1, fun _ _ _ => true,
        fun l => if l = 0 then 20 else 26, some 25⟩ 0 1
      = agreeMask ⟨1, 1, 2, fun _ _ _ => true, fun _ _ _ => 1, fun _ _ _ => true,
        fun l => if l = 0 then 20 else 26, some 25⟩ 0 1) :=
  ⟨by norm_num [siglimitDefined, valmask],
    written_masks_conjunction _ 0 1
      (by norm_num [siglimitDefined, valmask])
      (by
        intro i j hij
        dsimp only
        by_cases hi : i = 0 <;> by_cases hj : j = 0 <;>
          simp [hi, hj] <;> norm_num <;> omega)
      ⟨1, by norm_num, by norm_num⟩⟩

/-- C7 counterexample: in the single-model (non-`mme`) branch, when the bowl
threshold is undefined the else-branch masks only `vardiffsgSum`, so the
bowl-truncated variable keeps a valid bin (full coverage, ordinary data)
instead of having the entire column masked as claimed. -/
theorem bowl_undefined_keeps_bin_in_mm_branch :
    siglimitDefined ⟨1, 1, 1, fun _ _ _ => true, fun _ _ _ => 1, fun _ _ _ => true,
      fun _ => 26, none⟩ = false ∧
    bowlMask ⟨1, 1, 1, fun _ _ _ => true, fun _ _ _ => 1, fun _ _ _ => true,
      fun _ => 26, none⟩ false 0 0 = false := by
  constructor
  · rfl
  · norm_num [bowlMask, siglimitDefined, covMask, percenta, validCount, meanVal,
      valmask, List.range_succ]

/-- C7 amended: in the `mme` branch the claim holds — with a defined
threshold every level strictly lighter than it is masked in the
bowl-truncated output and the levels at or above it keep their coverage
validity, and with an undefined threshold the whole column is masked (for
the non-`mme` branch too, every lighter level is masked when the threshold
is defined); but in the non-`mme` branch an undefined threshold masks only
the sign-agreement column, while the bowl-truncated output keeps the
coverage mask plus the fill-value wash. -/
theorem bowl_truncation_per_branch (col : EnsColumn) (t lev : Nat)
    (hmono : ∀ i j, i ≤ j → col.sigmaGrd i ≤ col.sigmaGrd j)
    (hex : ∃ l, l < col.levN ∧ col.siglimit.getD 0 ≤ col.sigmaGrd l) :
    (siglimitDefined col = true →
      (col.sigmaGrd lev < col.siglimit.getD 0 →
        bowlMask col true t lev = true ∧ bowlMask col false t lev = true) ∧
      (col.siglimit.getD 0 ≤ col.sigmaGrd lev →
        bowlMask col true t lev = covMask col t lev)) ∧
    (siglimitDefined col = false →
      bowlMask col true t lev = true ∧ agreeMask col t lev = true ∧
      bowlMask col false t lev
        = (covMask col t lev || decide (valmask / 10 < meanVal col t lev))) := by
  constructor
  · intro hdef
    constructor
    · intro hlight
      have hlt : lev < bowlIdx col := by
        by_contra h
        have := (bowlIdx_le_iff col lev hmono hex).mp (by omega)
        linarith
      constructor
      · rw [bowlMask, if_pos rfl, if_pos hdef]
        simp [hlt]
      · rw [bowlMask, if_neg (by simp), if_pos hdef]
        simp [hlt]
    · intro hheavy
      have hge : bowlIdx col ≤ lev := (bowlIdx_le_iff col lev hmono hex).mpr hheavy
      rw [bowlMask, if_pos rfl, if_pos hdef]
      simp
      omega
  · intro hundef
    refine ⟨?_, ?_, ?_⟩
    · rw [bowlMask, if_pos rfl, if_neg (by simp [hundef])]
    · rw [agreeMask, if_neg (by simp [hundef])]
    · rw [bowlMask, if_neg (by simp), if_neg (by simp [hundef])]

theorem bowl_truncation_per_branch_witness :
    (∃ l, l < (⟨1, 1, 2, fun _ _ _ => true, fun _ _ _ => 1, fun _ _ _ => true,
        fun l => if l = 0 then 20 else 26, some 25⟩ : EnsColumn).levN ∧
      (Option.some (25:ℚ)).getD 0
        ≤ (⟨1, 1, 2, fun _ _ _ => true, fun _ _ _ => 1, fun _ _ _ => true,
            fun l => if l = 0 then 20 else 26, some 25⟩ : EnsColumn).sigmaGrd l) ∧
    (siglimitDefined ⟨1, 1, 2, fun _ _ _ => true, fun _ _ _ => 1, fun _ _ _ => true,
        fun l => if l = 0 then 20 else 26, some 25⟩ = true →
      bowlMask ⟨1, 1, 2, fun _ _ _ => true, fun _ _ _ => 1, fun _ _ _ => true,
        fun l => if l = 0 then 20 else 26, some 25⟩ true 0 0 = true) := by
  have h := bowl_truncation_per_branch
    ⟨1, 1, 2, fun _ _ _ => true, fun _ _ _ => 1, fun _ _ _ => true,
      fun l => if l = 0 then 20 else 26, some 25⟩ 0 0
    (by
      intro i j hij
      dsimp only
      by_cases hi : i = 0 <;> by_cases hj : j = 0 <;>
        simp [hi, hj] <;> norm_num <;> omega)
    ⟨1, by norm_num, by norm_num⟩
  refine ⟨⟨1, by norm_num, by norm_num⟩, ?_⟩
  intro hdef
  exact ((h.1 hdef).1 (by norm_num)).1

/-!
## Isopycnal Binning Engine

The per-column, per-time-step body of `densityBin` (`binDensity.py` lines
492-590).  Every step there is either per-column (the `for i in
range(lonN*latN)` loops) or an elementwise array operation, so the model is
one column.  `s_z` is `rhon.data[t][:,i]` (whatever values the masked
positions carry), `vmask` is `vmask_3D[:,i]`, `z_zt = depth[:]`,
`z_zw = bounds.data[:,0]`, and `s_s` is one column of the tiled density
grid.  Hard-coded constants from the source: `del_s1 = 0.2`,
`rho_max = 28.5`, `max_depth_ocean = 6000.`.
-/

/-- `del_s1 = 0.2` from `densityBin`. -/
def del_s1 : ℚ := 1/5

/-- `rho_max = 28.5` from `densityBin`. -/
def rho_max : ℚ := 57/2

/-- `max_depth_ocean = 6000.` from `densityBin`. -/
def max_depth_ocean : ℚ := 6000

/-- numpy/python indexing of an axis of length `n` by a possibly negative
integer: `-1` addresses the last element. -/
def nidx (n : Nat) (i : Int) : Nat := (i % (n : Int)).toNat

/-- numpy `argmax` over a boolean array: index of the first `true`, or 0
when there is none. -/
def npArgmaxBool (p : Nat → Bool) (n : Nat) : Nat :=
  if firstSat p n = n then 0 else firstSat p n

/-- One input column of `densityBin` at one time step. -/
structure GridColumn where
  depthN : Nat
  s_z : Nat → ℚ
  c1_z : Nat → ℚ
  c2_z : Nat → ℚ
  vmask : Nat → Bool
  z_zt : Nat → ℚ
  z_zw : Nat → ℚ

namespace GridColumn

/-- `nomask = npy.equal(vmask_3D[0],0)`: the column participates iff its
surface cell is not masked. -/
def nomask (c : GridColumn) : Bool := !(c.vmask 0)

/-- `i_bottom = vmask_3D.argmax(axis=0)-1` (as an integer; `-1` when the
column has no masked cell). -/
def i_bottom (c : GridColumn) : Int :=
  (npArgmaxBool c.vmask c.depthN : Int) - 1

/-- `z_zw[i_bottom+1]`, the depth written into the sentinel row `z_s[N_s]`. -/
def botDepth (c : GridColumn) : ℚ := c.z_zw (npArgmaxBool c.vmask c.depthN)

/-- The density profile as a list, `s_z[:,i]`. -/
def szList (c : GridColumn) : List ℚ := (List.range c.depthN).map c.s_z

/-- `i_min[nomask] = s_z.argmin(axis=0)[nomask]` (0 for masked columns,
which keep the `npy.ones(...)*0` initialisation). -/
def i_min0 (c : GridColumn) : Int :=
  if c.nomask then (argminIdx c.szList : Int) else 0

/-- `i_max[nomask] = s_z.argmax(axis=0)[nomask]-1` (0 for masked columns). -/
def i_max0 (c : GridColumn) : Int :=
  if c.nomask then (argmaxIdx c.szList : Int) - 1 else 0

/-- `i_min[i_min > i_max] = i_max[i_min > i_max]`. -/
def i_min1 (c : GridColumn) : Int :=
  if c.i_max0 < c.i_min0 then c.i_max0 else c.i_min0

/-- `delta_rho[nomask] = s_z[i_bottom[nomask],nomask] - s_z[0,nomask]`
(`valmask` for masked columns). -/
def delta_rho (c : GridColumn) : ℚ :=
  if c.nomask then c.s_z (nidx c.depthN c.i_bottom) - c.s_z 0 else valmask

/-- `i_min[delta_rho < del_s1] = 0`. -/
def i_minF (c : GridColumn) : Int :=
  if c.delta_rho < del_s1 then 0 else c.i_min1

/-- `i_max[delta_rho < del_s1] = i_bottom[delta_rho < del_s1]`. -/
def i_maxF (c : GridColumn) : Int :=
  if c.delta_rho < del_s1 then c.i_bottom else c.i_max0

/-- `szmin[i] = s_z[i_min[i],i]` for unmasked columns, `0.` otherwise. -/
def szmin (c : GridColumn) : ℚ :=
  if c.nomask then c.s_z (nidx c.depthN c.i_minF) else 0

/-- `szmax[i] = s_z[i_max[i],i]` for unmasked columns, `rho_max+10.`
otherwise. -/
def szmax (c : GridColumn) : ℚ :=
  if c.nomask then c.s_z (nidx c.depthN c.i_maxF) else rho_max + 10

/-- `(k >= i_min) & (k <= i_max)`: level `k` lies in the extracted
sub-profile window. -/
def wndw (c : GridColumn) (k : Nat) : Bool :=
  decide (c.i_minF ≤ (k : Int) ∧ (k : Int) ≤ c.i_maxF)

/-- `szm`: the density sub-profile, `valmask` outside the window. -/
def szm (c : GridColumn) (k : Nat) : ℚ := if c.wndw k then c.s_z k else valmask

/-- `zzm`: the depth sub-profile (`z_zt[k]` in the window). -/
def zzm (c : GridColumn) (k : Nat) : ℚ := if c.wndw k then c.z_zt k else valmask

/-- `c1m`: the temperature sub-profile. -/
def c1m (c : GridColumn) (k : Nat) : ℚ := if c.wndw k then c.c1_z k else valmask

/-- `c2m`: the salinity sub-profile. -/
def c2m (c : GridColumn) (k : Nat) : ℚ := if c.wndw k then c.c2_z k else valmask

end GridColumn

/-- The interval walker of `np.interp` (sorted-abscissae semantics): `a` is
the last abscissa already passed. -/
def interpGo (x rightv : ℚ) : ℚ × ℚ → List (ℚ × ℚ) → ℚ
  | a, [] => if a.1 < x then rightv else a.2
  | a, q :: rest =>
    if x ≤ q.1 then a.2 + (q.2 - a.2) * (x - a.1) / (q.1 - a.1)
    else interpGo x rightv q rest

/-- `np.interp(x, xp, fp, right=rightv)` over the point list
`pts = zip(xp, fp)`: `fp[0]` left of the domain, `rightv` right of it,
piecewise-linear inside. -/
def interp (x : ℚ) (pts : List (ℚ × ℚ)) (rightv : ℚ) : ℚ :=
  match pts with
  | [] => 0
  | p :: rest => if x < p.1 then p.2 else interpGo x rightv p rest

namespace GridColumn

/-- The `(szm, zzm)` point list fed to the depth interpolation
(line 557). -/
def ptsDZ (c : GridColumn) : List (ℚ × ℚ) :=
  (List.range c.depthN).map (fun k => (c.szm k, c.zzm k))

/-- The `(zzm, c1m)` point list fed to the temperature interpolation
(line 558). -/
def ptsZT (c : GridColumn) : List (ℚ × ℚ) :=
  (List.range c.depthN).map (fun k => (c.zzm k, c.c1m k))

/-- The `(zzm, c2m)` point list fed to the salinity interpolation
(line 559). -/
def ptsZS (c : GridColumn) : List (ℚ × ℚ) :=
  (List.range c.depthN).map (fun k => (c.zzm k, c.c2m k))

/-- `z_s` after lines 500-559: rows `0..N_s-1` interpolated, row `N_s` the
bottom sentinel depth, masked columns left at `valmask`. -/
def zsRaw (c : GridColumn) (s_s : List ℚ) (n : Nat) : ℚ :=
  if c.nomask then
    if n < s_s.length then interp (s_s.getD n 0) c.ptsDZ valmask
    else if n = s_s.length then c.botDepth
    else valmask
  else valmask

/-- `c1_s` after lines 500-559. -/
def c1Raw (c : GridColumn) (s_s : List ℚ) (n : Nat) : ℚ :=
  if c.nomask then
    if n < s_s.length then interp (c.zsRaw s_s n) c.ptsZT valmask
    else if n = s_s.length then c.c1_z (c.depthN - 1)
    else valmask
  else valmask

/-- `c2_s` after lines 500-559. -/
def c2Raw (c : GridColumn) (s_s : List ℚ) (n : Nat) : ℚ :=
  if c.nomask then
    if n < s_s.length then interp (c.zsRaw s_s n) c.ptsZS valmask
    else if n = s_s.length then c.c2_z (c.depthN - 1)
    else valmask
  else valmask

/-- `z_s` after the two pinning blocks (lines 560-570): rows lighter than
`szmin` pinned to the surface (0), rows denser than `szmax` pinned to the
current `z_s[N_s]`; the denser update runs second and wins when both
apply. -/
def zsPin (c : GridColumn) (s_s : List ℚ) (n : Nat) : ℚ :=
  if n < s_s.length then
    if c.szmax < s_s.getD n 0 then c.zsRaw s_s s_s.length
    else if s_s.getD n 0 < c.szmin then 0
    else c.zsRaw s_s n
  else c.zsRaw s_s n

/-- `c1_s` after the pinning blocks: out-of-range rows set to `valmask`. -/
def c1Pin (c : GridColumn) (s_s : List ℚ) (n : Nat) : ℚ :=
  if n < s_s.length ∧ (s_s.getD n 0 < c.szmin ∨ c.szmax < s_s.getD n 0) then valmask
  else c.c1Raw s_s n

/-- `c2_s` after the pinning blocks. -/
def c2Pin (c : GridColumn) (s_s : List ℚ) (n : Nat) : ℚ :=
  if n < s_s.length ∧ (s_s.getD n 0 < c.szmin ∨ c.szmax < s_s.getD n 0) then valmask
  else c.c2Raw s_s n

/-- `z_s` after lines 571-572 (`z_s[c1_s == valmask] = valmask`). -/
def zsFinal (c : GridColumn) (s_s : List ℚ) (n : Nat) : ℚ :=
  if c.c1Pin s_s n = valmask then valmask else c.zsPin s_s n

/-- Raw isopycnal thickness (lines 574-575): `t_s[0] = z_s[0]`,
`t_s[1:N_s] = diff(z_s)`, row `N_s` left at its `valmask`
initialisation. -/
def tsRaw (c : GridColumn) (s_s : List ℚ) (n : Nat) : ℚ :=
  if n = 0 then c.zsFinal s_s 0
  else if n < s_s.length then c.zsFinal s_s n - c.zsFinal s_s (n - 1)
  else valmask

/-- Line 576-577: `t_s[(t_s <= 0.) ^ (t_s >= max_depth_ocean)] = valmask`. -/
def tsClip (c : GridColumn) (s_s : List ℚ) (n : Nat) : ℚ :=
  if xor (decide (c.tsRaw s_s n ≤ 0)) (decide (max_depth_ocean ≤ c.tsRaw s_s n))
  then valmask else c.tsRaw s_s n

/-- Line 578: `t_s[c1_s == valmask] = valmask`. -/
def tsFinal (c : GridColumn) (s_s : List ℚ) (n : Nat) : ℚ :=
  if c.c1Pin s_s n = valmask then valmask else c.tsClip s_s n

end GridColumn

/-- C3: every thickness value is either the fill value or lies strictly
between 0 and the 6000 m maximum plausible ocean depth, and every raw
thickness that is non-positive or at/above 6000 m ends up at the fill
value. -/
theorem thickness_masked_or_plausible (c : GridColumn) (s_s : List ℚ) (n : Nat) :
    (c.tsFinal s_s n = valmask ∨
      (0 < c.tsFinal s_s n ∧ c.tsFinal s_s n ≤ 6000)) ∧
    c.tsFinal s_s n
      = (if c.c1Pin s_s n = valmask ∨ c.tsRaw s_s n ≤ 0 ∨ max_depth_ocean ≤ c.tsRaw s_s n
         then valmask else c.tsRaw s_s n) := by
  constructor
  · unfold GridColumn.tsFinal
    split
    · exact Or.inl rfl
    unfold GridColumn.tsClip
    split
    · exact Or.inl rfl
    · rename_i hx
      right
      by_cases h1 : c.tsRaw s_s n ≤ 0 <;> by_cases h2 : max_depth_ocean ≤ c.tsRaw s_s n
      · unfold max_depth_ocean at h2
        linarith
      · simp [h1, h2] at hx
      · simp [h1, h2] at hx
      · unfold max_depth_ocean at h2
        constructor
        · linarith [not_le.mp h1]
        · linarith [not_le.mp h2]
  · unfold GridColumn.tsFinal GridColumn.tsClip
    by_cases hc1 : c.c1Pin s_s n = valmask
    · rw [if_pos hc1, if_pos (Or.inl hc1)]
    · rw [if_neg hc1]
      by_cases h1 : c.tsRaw s_s n ≤ 0 <;> by_cases h2 : max_depth_ocean ≤ c.tsRaw s_s n
      · unfold max_depth_ocean at h2
        linarith
      · rw [if_pos (by simp [h1, h2]), if_pos (by tauto)]
      · rw [if_pos (by simp [h1, h2]), if_pos (by tauto)]
      · rw [if_neg (by simp [h1, h2]), if_neg (by tauto)]

theorem interpGo_node (rightv : ℚ) (p : ℚ × ℚ) (pre : List (ℚ × ℚ)) :
    ∀ (a : ℚ × ℚ) (post : List (ℚ × ℚ)),
      a.1 < p.1 → (∀ q ∈ pre, q.1 < p.1) → (∀ q ∈ post, p.1 ≤ q.1) →
      interpGo p.1 rightv a (pre ++ p :: post) = p.2 := by
  induction pre with
  | nil =>
    intro a post ha _ _
    rw [List.nil_append]
    simp only [interpGo]
    rw [if_pos le_rfl]
    have hne : p.1 - a.1 ≠ 0 := sub_ne_zero.mpr (ne_of_gt ha)
    rw [mul_div_assoc, div_self hne, mul_one]
    ring
  | cons b pre ih =>
    intro a post ha hpre hpost
    rw [List.cons_append]
    simp only [interpGo]
    rw [if_neg (by
      push_neg
      exact hpre b (by simp))]
    exact ih b post (hpre b (by simp)) (fun q hq => hpre q (by simp [hq])) hpost

/-- `np.interp` evaluated exactly at a data abscissa returns the matching
ordinate, provided everything left of it is strictly smaller and everything
right of it at least as large. -/
theorem interp_node (rightv : ℚ) (p : ℚ × ℚ) (pre post : List (ℚ × ℚ))
    (hpre : ∀ q ∈ pre, q.1 < p.1) (hpost : ∀ q ∈ post, p.1 ≤ q.1) :
    interp p.1 (pre ++ p :: post) rightv = p.2 := by
  cases pre with
  | nil =>
    rw [List.nil_append]
    simp only [interp]
    rw [if_neg (lt_irrefl p.1)]
    cases post with
    | nil => simp [interpGo]
    | cons q rest =>
      simp only [interpGo]
      rw [if_pos (hpost q (by simp))]
      simp
  | cons a pre' =>
    rw [List.cons_append]
    simp only [interp]
    have ha : a.1 < p.1 := hpre a (by simp)
    rw [if_neg (by push_neg; exact le_of_lt ha)]
    exact interpGo_node rightv p pre' a post ha (fun q hq => hpre q (by simp [hq])) hpost

/-- `interp_node` specialised to a point list built by mapping over
`List.range n`, addressed by the index `j` of the node. -/
theorem interp_range_map_node (f : Nat → ℚ × ℚ) (n j : Nat) (hj : j < n) (rightv : ℚ)
    (hpre : ∀ k, k < j → (f k).1 < (f j).1)
    (hpost : ∀ k, j < k → k < n → (f j).1 ≤ (f k).1) :
    interp (f j).1 ((List.range n).map f) rightv = (f j).2 := by
  have hn : n = j + 1 + (n - j - 1) := by omega
  have hsplit : (List.range n).map f
      = ((List.range j).map f)
        ++ f j :: ((List.range (n - j - 1)).map (fun k => f (j + 1 + k))) := by
    conv_lhs => rw [hn]
    rw [List.range_add, List.range_succ]
    simp [List.map_map, Function.comp_def]
  rw [hsplit]
  refine interp_node rightv (f j) _ _ ?_ ?_
  · intro q hq
    rcases List.mem_map.mp hq with ⟨k, hk, hfk⟩
    rw [← hfk]
    exact hpre k (List.mem_range.mp hk)
  · intro q hq
    rcases List.mem_map.mp hq with ⟨k, hk, hfk⟩
    rw [← hfk]
    exact hpost (j + 1 + k) (by omega) (by have := List.mem_range.mp hk; omega)

/-- C8 amended theorem: when the extracted monotonic window starts at the
surface (`i_min = 0`), interpolating the depth at one of the column's own
sampled densities inside the window reproduces the sampled depth exactly. -/
theorem depth_roundtrip_on_surface_window (c : GridColumn) (j : Nat)
    (hnm : c.nomask = true)
    (h0 : c.i_minF = 0)
    (hmaxlt : c.i_maxF < (c.depthN : Int))
    (hj : (j : Int) ≤ c.i_maxF)
    (hmono : ∀ k l : Nat, k < l → (l : Int) ≤ c.i_maxF → c.s_z k < c.s_z l)
    (hbound : ∀ k : Nat, (k : Int) ≤ c.i_maxF → c.s_z k < valmask) :
    interp (c.s_z j) c.ptsDZ valmask = c.z_zt j := by
  have hwj : c.wndw j = true := by
    unfold GridColumn.wndw
    rw [h0]
    simp only [decide_eq_true_eq]
    exact ⟨by positivity, hj⟩
  have hszmj : c.szm j = c.s_z j := by
    unfold GridColumn.szm
    rw [hwj, if_pos rfl]
  have hzzmj : c.zzm j = c.z_zt j := by
    unfold GridColumn.zzm
    rw [hwj, if_pos rfl]
  have hjn : j < c.depthN := by omega
  have := interp_range_map_node (fun k => (c.szm k, c.zzm k)) c.depthN j hjn valmask
    (by
      intro k hk
      dsimp only
      have hwk : c.wndw k = true := by
        unfold GridColumn.wndw
        rw [h0]
        simp only [decide_eq_true_eq]
        exact ⟨by positivity, by omega⟩
      rw [hszmj]
      unfold GridColumn.szm
      rw [hwk, if_pos rfl]
      exact hmono k j hk hj)
    (by
      intro k hjk hkn
      dsimp only
      rw [hszmj]
      unfold GridColumn.szm
      by_cases hwk : c.wndw k = true
      · rw [hwk, if_pos rfl]
        have hkmax : (k : Int) ≤ c.i_maxF := by
          unfold GridColumn.wndw at hwk
          simp only [decide_eq_true_eq] at hwk
          exact hwk.2
        exact le_of_lt (hmono j k hjk hkmax)
      · rw [Bool.not_eq_true] at hwk
        rw [hwk]
        simp only [Bool.false_eq_true, if_false]
        exact le_of_lt (hbound j hj))
  dsimp only at this
  rw [hszmj, hzzmj] at this
  exact this

/-- The C8 counterexample column: a density profile with a surface
inversion, so that the extracted window starts at `i_min = 1 > 0` and the
fill values ahead of the window head the interpolation abscissae. -/
def c8col : GridColumn :=
  ⟨4,
    fun k => if k = 0 then 25 else if k = 1 then 24 else if k = 2 then 26 else 1000000,
    fun _ => 10,
    fun _ => 35,
    fun k => decide (3 ≤ k),
    fun k => if k = 0 then 5 else if k = 1 then 15 else if k = 2 then 25 else 35,
    fun k => if k = 0 then 0 else if k = 1 then 10 else if k = 2 then 20 else 30⟩

/-- C8 counterexample: for this unmasked column the sampled density
`s_z[1] = 24` lies inside the monotonic sub-profile's domain
`[szmin, szmax] = [24, 26]`, yet the interpolation returns the fill value
`1e20` instead of the original depth `z_zt[1] = 15`, because the window
starts at `i_min = 1` and the leading `valmask` entry heads the abscissae
(`np.interp` returns `fp[0]` for any query below `xp[0]`). -/
theorem depth_roundtrip_fails_off_surface :
    c8col.nomask = true ∧ c8col.i_minF = 1 ∧ c8col.i_maxF = 2 ∧
    c8col.szmin ≤ c8col.s_z 1 ∧ c8col.s_z 1 ≤ c8col.szmax ∧
    interp (c8col.s_z 1) c8col.ptsDZ valmask = valmask ∧
    c8col.z_zt 1 ≠ valmask := by
  have hnm : c8col.nomask = true := by
    rw [GridColumn.nomask]
    norm_num [c8col]
  have hdN : c8col.depthN = 4 := rfl
  have hfs : firstSat c8col.vmask c8col.depthN = 3 := by
    norm_num [firstSat, firstSatAux, c8col]
  have hbot : c8col.i_bottom = 2 := by
    rw [GridColumn.i_bottom, npArgmaxBool, hfs, hdN]
    norm_num
  have hlist : c8col.szList = [25, 24, 26, 1000000] := by
    rw [GridColumn.szList, hdN]
    norm_num [c8col, List.range_succ]
  have hmin0 : c8col.i_min0 = 1 := by
    rw [GridColumn.i_min0, if_pos hnm, hlist]
    norm_num [argminIdx]
  have hmax0 : c8col.i_max0 = 2 := by
    rw [GridColumn.i_max0, if_pos hnm, hlist]
    norm_num [argmaxIdx]
  have hmin1 : c8col.i_min1 = 1 := by
    rw [GridColumn.i_min1, hmin0, hmax0]
    norm_num
  have hdr : c8col.delta_rho = 1 := by
    rw [GridColumn.delta_rho, if_pos hnm, hbot, hdN]
    norm_num [nidx, c8col, show ((2:Int).toNat = 2) from rfl]
  have hminF : c8col.i_minF = 1 := by
    rw [GridColumn.i_minF, hdr, hmin1, if_neg (by norm_num [del_s1])]
  have hmaxF : c8col.i_maxF = 2 := by
    rw [GridColumn.i_maxF, hdr, hmax0, if_neg (by norm_num [del_s1])]
  have hszmin : c8col.szmin = 24 := by
    rw [GridColumn.szmin, if_pos hnm, hminF, hdN]
    norm_num [nidx, c8col, show ((1:Int).toNat = 1) from rfl]
  have hszmax : c8col.szmax = 26 := by
    rw [GridColumn.szmax, if_pos hnm, hmaxF, hdN]
    norm_num [nidx, c8col, show ((2:Int).toNat = 2) from rfl]
  have hw0 : c8col.wndw 0 = false := by
    rw [GridColumn.wndw, hminF, hmaxF]
    decide
  have hw1 : c8col.wndw 1 = true := by
    rw [GridColumn.wndw, hminF, hmaxF]
    decide
  have hw2 : c8col.wndw 2 = true := by
    rw [GridColumn.wndw, hminF, hmaxF]
    decide
  have hw3 : c8col.wndw 3 = false := by
    rw [GridColumn.wndw, hminF, hmaxF]
    decide
  have hszm0 : c8col.szm 0 = valmask := by
    rw [GridColumn.szm, hw0]
    simp
  have hszm1 : c8col.szm 1 = 24 := by
    rw [GridColumn.szm, hw1, if_pos rfl]
    norm_num [c8col]
  have hszm2 : c8col.szm 2 = 26 := by
    rw [GridColumn.szm, hw2, if_pos rfl]
    norm_num [c8col]
  have hszm3 : c8col.szm 3 = valmask := by
    rw [GridColumn.szm, hw3]
    simp
  have hzzm0 : c8col.zzm 0 = valmask := by
    rw [GridColumn.zzm, hw0]
    simp
  have hzzm1 : c8col.zzm 1 = 15 := by
    rw [GridColumn.zzm, hw1, if_pos rfl]
    norm_num [c8col]
  have hzzm2 : c8col.zzm 2 = 25 := by
    rw [GridColumn.zzm, hw2, if_pos rfl]
    norm_num [c8col]
  have hzzm3 : c8col.zzm 3 = valmask := by
    rw [GridColumn.zzm, hw3]
    simp
  have hpts : c8col.ptsDZ
      = [(valmask, valmask), (24, 15), (26, 25), (valmask, valmask)] := by
    rw [GridColumn.ptsDZ, hdN]
    simp [List.range_succ, hszm0, hszm1, hszm2, hszm3, hzzm0, hzzm1, hzzm2, hzzm3]
  have hx : c8col.s_z 1 = 24 := by norm_num [c8col]
  refine ⟨hnm, hminF, hmaxF, ?_, ?_, ?_, ?_⟩
  · rw [hszmin, hx]
  · rw [hszmax, hx]
    norm_num
  · rw [hpts, hx]
    simp only [interp]
    rw [if_pos (by norm_num [valmask])]
  · norm_num [c8col, valmask]

theorem depth_roundtrip_on_surface_window_witness :
    (⟨2, fun k => if k = 0 then 24 else 25, fun _ => 10, fun _ => 35,
       fun k => decide (1 ≤ k), fun k => if k = 0 then 5 else 15,
       fun k => if k = 0 then 0 else 10⟩ : GridColumn).nomask = true ∧
    interp ((⟨2, fun k => if k = 0 then 24 else 25, fun _ => 10, fun _ => 35,
       fun k => decide (1 ≤ k), fun k => if k = 0 then 5 else 15,
       fun k => if k = 0 then 0 else 10⟩ : GridColumn).s_z 0)
      (⟨2, fun k => if k = 0 then 24 else 25, fun _ => 10, fun _ => 35,
       fun k => decide (1 ≤ k), fun k => if k = 0 then 5 else 15,
       fun k => if k = 0 then 0 else 10⟩ : GridColumn).ptsDZ valmask
      = (⟨2, fun k => if k = 0 then 24 else 25, fun _ => 10, fun _ => 35,
       fun k => decide (1 ≤ k), fun k => if k = 0 then 5 else 15,
       fun k => if k = 0 then 0 else 10⟩ : GridColumn).z_zt 0 := by
  set c : GridColumn := ⟨2, fun k => if k = 0 then 24 else 25, fun _ => 10, fun _ => 35,
       fun k => decide (1 ≤ k), fun k => if k = 0 then 5 else 15,
       fun k => if k = 0 then 0 else 10⟩ with hc
  have hnm : c.nomask = true := by
    rw [GridColumn.nomask, hc]
    norm_num
  have hdN : c.depthN = 2 := by rw [hc]
  have hfs : firstSat c.vmask 2 = 1 := by
    rw [hc]
    norm_num [firstSat, firstSatAux]
  have hbot : c.i_bottom = 0 := by
    rw [GridColumn.i_bottom, npArgmaxBool, hdN, hfs]
    norm_num
  have hdr : c.delta_rho = 0 := by
    rw [GridColumn.delta_rho, if_pos hnm, hbot, hdN]
    norm_num [nidx, hc, Int.toNat_ofNat]
  have hminF : c.i_minF = 0 := by
    rw [GridColumn.i_minF, hdr, if_pos (by norm_num [del_s1])]
  have hmaxF : c.i_maxF = 0 := by
    rw [GridColumn.i_maxF, hdr, hbot, if_pos (by norm_num [del_s1])]
  refine ⟨hnm, ?_⟩
  refine depth_roundtrip_on_surface_window c 0 hnm hminF ?_ ?_ ?_ ?_
  · rw [hmaxF, hdN]
    norm_num
  · rw [hmaxF]
    norm_num
  · intro k l hkl hl
    rw [hmaxF] at hl
    omega
  · intro k hk
    rw [hmaxF] at hk
    have hk0 : k = 0 := by omega
    rw [hk0, hc]
    norm_num [valmask]

/-- C2 amended theorem: for an unmasked column, a target density strictly
lighter than `szmin` is first pinned to the surface (`z_s = 0`) and one
strictly denser than `szmax` to the bottom sentinel depth, with temperature
and salinity set to the fill value — but the subsequent mask wash
`z_s[c1_s == valmask] = valmask` (line 571-572) then replaces the pinned
depth by the fill value, so the final depth is missing in both cases; the
pipeline is total, so no exception is raised. -/
theorem out_of_range_pinning (c : GridColumn) (s_s : List ℚ) (n : Nat)
    (hnm : c.nomask = true) (hn : n < s_s.length) :
    (s_s.getD n 0 < c.szmin → s_s.getD n 0 ≤ c.szmax →
      c.zsPin s_s n = 0 ∧ c.c1Pin s_s n = valmask ∧ c.c2Pin s_s n = valmask ∧
      c.zsFinal s_s n = valmask) ∧
    (c.szmax < s_s.getD n 0 →
      c.zsPin s_s n = c.botDepth ∧ c.c1Pin s_s n = valmask ∧
      c.c2Pin s_s n = valmask ∧ c.zsFinal s_s n = valmask) := by
  constructor
  · intro h1 h2
    have hc1 : c.c1Pin s_s n = valmask := by
      rw [GridColumn.c1Pin, if_pos ⟨hn, Or.inl h1⟩]
    refine ⟨?_, hc1, ?_, ?_⟩
    · rw [GridColumn.zsPin, if_pos hn, if_neg (not_lt.mpr h2), if_pos h1]
    · rw [GridColumn.c2Pin, if_pos ⟨hn, Or.inl h1⟩]
    · rw [GridColumn.zsFinal, if_pos hc1]
  · intro h
    have hc1 : c.c1Pin s_s n = valmask := by
      rw [GridColumn.c1Pin, if_pos ⟨hn, Or.inr h⟩]
    refine ⟨?_, hc1, ?_, ?_⟩
    · rw [GridColumn.zsPin, if_pos hn, if_pos h, GridColumn.zsRaw, if_pos hnm,
        if_neg (lt_irrefl s_s.length), if_pos rfl]
    · rw [GridColumn.c2Pin, if_pos ⟨hn, Or.inr h⟩]
    · rw [GridColumn.zsFinal, if_pos hc1]

/-- The C2 counterexample/witness column: bottom at level 1, densities
`[24, 25]` with garbage below the bottom. -/
def c2col : GridColumn :=
  ⟨3,
    fun k => if k = 0 then 24 else if k = 1 then 25 else -1000,
    fun _ => 10,
    fun _ => 35,
    fun k => decide (2 ≤ k),
    fun k => if k = 0 then 5 else if k = 1 then 15 else 25,
    fun k => if k = 0 then 0 else if k = 1 then 10 else 20⟩

theorem c2col_nomask : c2col.nomask = true := by
  rw [GridColumn.nomask]
  norm_num [c2col]

theorem c2col_szmin : c2col.szmin = 24 := by
  have hdN : c2col.depthN = 3 := rfl
  have hfs : firstSat c2col.vmask c2col.depthN = 2 := by
    norm_num [firstSat, firstSatAux, c2col]
  have hbot : c2col.i_bottom = 1 := by
    rw [GridColumn.i_bottom, npArgmaxBool, hfs, hdN]
    norm_num
  have hlist : c2col.szList = [24, 25, -1000] := by
    rw [GridColumn.szList, hdN]
    norm_num [c2col, List.range_succ]
  have hmin0 : c2col.i_min0 = 2 := by
    rw [GridColumn.i_min0, if_pos c2col_nomask, hlist]
    norm_num [argminIdx]
  have hmax0 : c2col.i_max0 = 0 := by
    rw [GridColumn.i_max0, if_pos c2col_nomask, hlist]
    norm_num [argmaxIdx]
  have hmin1 : c2col.i_min1 = 0 := by
    rw [GridColumn.i_min1, hmin0, hmax0, if_pos (by norm_num)]
  have hdr : c2col.delta_rho = 1 := by
    rw [GridColumn.delta_rho, if_pos c2col_nomask, hbot, hdN]
    norm_num [nidx, c2col, show ((1:Int).toNat = 1) from rfl]
  have hminF : c2col.i_minF = 0 := by
    rw [GridColumn.i_minF, hdr, hmin1, if_neg (by norm_num [del_s1])]
  rw [GridColumn.szmin, if_pos c2col_nomask, hminF, hdN]
  norm_num [nidx, c2col, show ((0:Int).toNat = 0) from rfl]

theorem c2col_szmax : c2col.szmax = 24 := by
  have hdN : c2col.depthN = 3 := rfl
  have hfs : firstSat c2col.vmask c2col.depthN = 2 := by
    norm_num [firstSat, firstSatAux, c2col]
  have hlist : c2col.szList = [24, 25, -1000] := by
    rw [GridColumn.szList, hdN]
    norm_num [c2col, List.range_succ]
  have hbot : c2col.i_bottom = 1 := by
    rw [GridColumn.i_bottom, npArgmaxBool, hfs, hdN]
    norm_num
  have hmax0 : c2col.i_max0 = 0 := by
    rw [GridColumn.i_max0, if_pos c2col_nomask, hlist]
    norm_num [argmaxIdx]
  have hdr : c2col.delta_rho = 1 := by
    rw [GridColumn.delta_rho, if_pos c2col_nomask, hbot, hdN]
    norm_num [nidx, c2col, show ((1:Int).toNat = 1) from rfl]
  have hmaxF : c2col.i_maxF = 0 := by
    rw [GridColumn.i_maxF, hdr, hmax0, if_neg (by norm_num [del_s1])]
  rw [GridColumn.szmax, if_pos c2col_nomask, hmaxF, hdN]
  norm_num [nidx, c2col, show ((0:Int).toNat = 0) from rfl]

/-- C2 counterexample: for this unmasked column a target density (23)
strictly lighter than `szmin = 24` yields a final depth-of-isopycnal equal
to the fill value, not 0, and a target density (26) strictly denser than
`szmax = 24` yields the fill value, not the bottom sentinel depth 20: the
mask wash of line 571-572 overwrites both pinned depths. -/
theorem pinned_depths_overwritten_by_mask_wash :
    c2col.nomask = true ∧
    (([23, 26] : List ℚ).getD 0 0 < c2col.szmin ∧
      c2col.zsFinal [23, 26] 0 = valmask ∧ c2col.zsFinal [23, 26] 0 ≠ 0) ∧
    (c2col.szmax < ([23, 26] : List ℚ).getD 1 0 ∧
      c2col.botDepth = 20 ∧ c2col.zsFinal [23, 26] 1 ≠ c2col.botDepth) := by
  have hl0 : (([23, 26] : List ℚ).getD 0 0) = 23 := rfl
  have hl1 : (([23, 26] : List ℚ).getD 1 0) = 26 := rfl
  have h1 : (([23, 26] : List ℚ).getD 0 0) < c2col.szmin := by
    rw [hl0, c2col_szmin]
    norm_num
  have h2 : c2col.szmax < ([23, 26] : List ℚ).getD 1 0 := by
    rw [hl1, c2col_szmax]
    norm_num
  have hc10 : c2col.c1Pin [23, 26] 0 = valmask := by
    rw [GridColumn.c1Pin, if_pos ⟨by norm_num, Or.inl h1⟩]
  have hc11 : c2col.c1Pin [23, 26] 1 = valmask := by
    rw [GridColumn.c1Pin, if_pos ⟨by norm_num, Or.inr h2⟩]
  have hz0 : c2col.zsFinal [23, 26] 0 = valmask := by
    rw [GridColumn.zsFinal, if_pos hc10]
  have hz1 : c2col.zsFinal [23, 26] 1 = valmask := by
    rw [GridColumn.zsFinal, if_pos hc11]
  have hbd : c2col.botDepth = 20 := by
    have hfs : firstSat c2col.vmask c2col.depthN = 2 := by
      norm_num [firstSat, firstSatAux, c2col]
    rw [GridColumn.botDepth, npArgmaxBool, hfs]
    norm_num [c2col]
  refine ⟨c2col_nomask, ⟨h1, hz0, ?_⟩, ⟨h2, hbd, ?_⟩⟩
  · rw [hz0]
    norm_num [valmask]
  · rw [hz1, hbd]
    norm_num [valmask]

theorem out_of_range_pinning_witness :
    (c2col.nomask = true ∧ 0 < ([23, 26] : List ℚ).length) ∧
    ((([23, 26] : List ℚ).getD 0 0 < c2col.szmin →
        ([23, 26] : List ℚ).getD 0 0 ≤ c2col.szmax →
        c2col.zsPin [23, 26] 0 = 0 ∧ c2col.c1Pin [23, 26] 0 = valmask ∧
        c2col.c2Pin [23, 26] 0 = valmask ∧ c2col.zsFinal [23, 26] 0 = valmask) ∧
      (c2col.szmax < ([23, 26] : List ℚ).getD 0 0 →
        c2col.zsPin [23, 26] 0 = c2col.botDepth ∧
        c2col.c1Pin [23, 26] 0 = valmask ∧
        c2col.c2Pin [23, 26] 0 = valmask ∧ c2col.zsFinal [23, 26] 0 = valmask)) :=
  ⟨⟨c2col_nomask, by norm_num⟩,
    out_of_range_pinning c2col [23, 26] 0 c2col_nomask (by norm_num)⟩

theorem chain'_range_map {α : Type} (R : α → α → Prop) (f : Nat → α) (n : Nat)
    (h : ∀ k, k + 1 < n → R (f k) (f (k + 1))) :
    List.Chain' R ((List.range n).map f) := by
  cases n with
  | zero => simp
  | succ m =>
    rw [List.chain'_map, List.chain'_range_succ]
    intro i hi
    exact h i (by omega)

theorem interpGo_bounds (x rightv : ℚ) :
    ∀ (rest : List (ℚ × ℚ)) (a : ℚ × ℚ),
      a.1 ≤ x →
      List.Chain' (fun p q => p.1 ≤ q.1) (a :: rest) →
      List.Chain' (fun p q => p.2 ≤ q.2) (a :: rest) →
      (∀ q ∈ a :: rest, q.2 ≤ rightv) →
      a.2 ≤ interpGo x rightv a rest ∧ interpGo x rightv a rest ≤ rightv := by
  intro rest
  induction rest with
  | nil =>
    intro a _ _ _ hr
    simp only [interpGo]
    split
    · exact ⟨hr a (by simp), le_refl _⟩
    · exact ⟨le_refl _, hr a (by simp)⟩
  | cons q rest ih =>
    intro a hax hcx hcy hr
    simp only [interpGo]
    split
    · rename_i hxq
      have haq : a.1 ≤ q.1 := (List.chain'_cons.mp hcx).1
      have hay : a.2 ≤ q.2 := (List.chain'_cons.mp hcy).1
      rcases eq_or_lt_of_le haq with he | hlt
      · have hxa : x = a.1 := le_antisymm (by rw [he]; exact hxq) hax
        rw [hxa, sub_self, mul_zero, zero_div, add_zero]
        exact ⟨le_refl _, hr a (by simp)⟩
      · have hnum : 0 ≤ (q.2 - a.2) * (x - a.1) / (q.1 - a.1) :=
          div_nonneg (mul_nonneg (by linarith) (by linarith)) (by linarith)
        have hub : (q.2 - a.2) * (x - a.1) / (q.1 - a.1) ≤ q.2 - a.2 := by
          rw [div_le_iff (by linarith)]
          nlinarith
        have hq2 : q.2 ≤ rightv := hr q (by simp)
        exact ⟨by linarith, by linarith⟩
    · rename_i hxq
      push_neg at hxq
      have hay : a.2 ≤ q.2 := (List.chain'_cons.mp hcy).1
      have := ih q (le_of_lt hxq) hcx.tail hcy.tail (fun p hp => hr p (by simp [hp]))
      exact ⟨le_trans hay this.1, this.2⟩

theorem interpGo_mono (rightv x x' : ℚ) (hxx : x ≤ x') :
    ∀ (rest : List (ℚ × ℚ)) (a : ℚ × ℚ),
      a.1 ≤ x →
      List.Chain' (fun p q => p.1 ≤ q.1) (a :: rest) →
      List.Chain' (fun p q => p.2 ≤ q.2) (a :: rest) →
      (∀ q ∈ a :: rest, q.2 ≤ rightv) →
      interpGo x rightv a rest ≤ interpGo x' rightv a rest := by
  intro rest
  induction rest with
  | nil =>
    intro a hax _ _ hr
    simp only [interpGo]
    by_cases h1 : a.1 < x
    · rw [if_pos h1, if_pos (lt_of_lt_of_le h1 hxx)]
    · rw [if_neg h1]
      split
      · exact hr a (by simp)
      · exact le_refl _
  | cons q rest ih =>
    intro a hax hcx hcy hr
    simp only [interpGo]
    have haq : a.1 ≤ q.1 := (List.chain'_cons.mp hcx).1
    have hay : a.2 ≤ q.2 := (List.chain'_cons.mp hcy).1
    by_cases h1 : x ≤ q.1 <;> by_cases h2 : x' ≤ q.1
    · rw [if_pos h1, if_pos h2]
      rcases eq_or_lt_of_le haq with he | hlt
      · have hxa : x = a.1 := le_antisymm (by rw [he]; exact h1) hax
        have hxa' : x' = a.1 := le_antisymm (by rw [he]; exact h2) (le_trans hax hxx)
        rw [hxa, hxa']
      · have hstep : (q.2 - a.2) * (x - a.1) / (q.1 - a.1)
            ≤ (q.2 - a.2) * (x' - a.1) / (q.1 - a.1) := by
          apply div_le_div_of_nonneg_right ?_ (by linarith)
          exact mul_le_mul_of_nonneg_left (by linarith) (by linarith)
        linarith
    · rw [if_pos h1, if_neg h2]
      push_neg at h2
      have hrhs := (interpGo_bounds x' rightv rest q (le_of_lt h2) hcx.tail hcy.tail
        (fun p hp => hr p (by simp [hp]))).1
      rcases eq_or_lt_of_le haq with he | hlt
      · have hxa : x = a.1 := le_antisymm (by rw [he]; exact h1) hax
        rw [hxa, sub_self, mul_zero, zero_div, add_zero]
        linarith
      · have hub : (q.2 - a.2) * (x - a.1) / (q.1 - a.1) ≤ q.2 - a.2 := by
          rw [div_le_iff (by linarith)]
          nlinarith
        linarith
    · push_neg at h1
      linarith
    · rw [if_neg h1, if_neg h2]
      push_neg at h1
      exact ih q (le_of_lt h1) hcx.tail hcy.tail (fun p hp => hr p (by simp [hp]))

/-- `np.interp` with sorted abscissae and ordinates (ordinates bounded by
the right fill) is monotone in the query point. -/
theorem interp_mono (rightv x x' : ℚ) (hxx : x ≤ x') (pts : List (ℚ × ℚ))
    (hcx : List.Chain' (fun p q => p.1 ≤ q.1) pts)
    (hcy : List.Chain' (fun p q => p.2 ≤ q.2) pts)
    (hr : ∀ q ∈ pts, q.2 ≤ rightv) :
    interp x pts rightv ≤ interp x' pts rightv := by
  cases pts with
  | nil => simp [interp]
  | cons p rest =>
    simp only [interp]
    by_cases h1 : x < p.1
    · rw [if_pos h1]
      split
      · exact le_refl _
      · rename_i h2
        push_neg at h2
        exact (interpGo_bounds x' rightv rest p h2 hcx hcy hr).1
    · push_neg at h1
      rw [if_neg (not_lt.mpr h1), if_neg (not_lt.mpr (le_trans h1 hxx))]
      exact interpGo_mono rightv x x' hxx rest p h1 hcx hcy hr

/-- `interp` never undershoots the first ordinate (for sorted data bounded
by the right fill). -/
theorem interp_ge_head (rightv x : ℚ) (p : ℚ × ℚ) (rest : List (ℚ × ℚ))
    (hcx : List.Chain' (fun p q => p.1 ≤ q.1) (p :: rest))
    (hcy : List.Chain' (fun p q => p.2 ≤ q.2) (p :: rest))
    (hr : ∀ q ∈ p :: rest, q.2 ≤ rightv) :
    p.2 ≤ interp x (p :: rest) rightv := by
  simp only [interp]
  split
  · exact le_refl _
  · rename_i h1
    push_neg at h1
    exact (interpGo_bounds x rightv rest p h1 hcx hcy hr).1

theorem interp_nonneg (rightv x : ℚ) (pts : List (ℚ × ℚ))
    (hcx : List.Chain' (fun p q => p.1 ≤ q.1) pts)
    (hcy : List.Chain' (fun p q => p.2 ≤ q.2) pts)
    (hr : ∀ q ∈ pts, q.2 ≤ rightv)
    (h0 : ∀ q ∈ pts, 0 ≤ q.2) :
    0 ≤ interp x pts rightv := by
  cases pts with
  | nil => simp [interp]
  | cons p rest =>
    exact le_trans (h0 p (by simp)) (interp_ge_head rightv x p rest hcx hcy hr)

/-- C9 amended theorem: the post-pinning depth sequence (lines 518-570,
before the mask wash of line 571) is monotone non-decreasing over the
density index — out-of-domain surface- and bottom-pinned levels included —
for a column whose density profile is strictly increasing on the extracted
window, provided the window starts at the surface (`i_min = 0`) and the
bottom sentinel depth bounds the window's depth samples from above (as it
does when `i_max ≤ i_bottom`). -/
theorem remapped_depths_monotone (c : GridColumn) (s_s : List ℚ)
    (hnm : c.nomask = true)
    (h0 : c.i_minF = 0)
    (h0max : 0 ≤ c.i_maxF)
    (hmaxlt : c.i_maxF < (c.depthN : Int))
    (hmono : ∀ k l : Nat, k < l → (l : Int) ≤ c.i_maxF → c.s_z k < c.s_z l)
    (hzmono : ∀ k l : Nat, k ≤ l → (l : Int) ≤ c.i_maxF → c.z_zt k ≤ c.z_zt l)
    (hz0 : 0 ≤ c.z_zt 0)
    (hzbot : ∀ k : Nat, (k : Int) ≤ c.i_maxF → c.z_zt k ≤ c.botDepth)
    (hsv : ∀ k : Nat, (k : Int) ≤ c.i_maxF → c.s_z k < valmask)
    (hbd0 : 0 ≤ c.botDepth)
    (hbv : c.botDepth ≤ valmask)
    (hss : ∀ n m : Nat, n ≤ m → m < s_s.length → s_s.getD n 0 ≤ s_s.getD m 0) :
    ∀ n m : Nat, n ≤ m → m ≤ s_s.length → c.zsPin s_s n ≤ c.zsPin s_s m := by
  set w := c.i_maxF.toNat with hw
  have hwi : (w : Int) = c.i_maxF := Int.toNat_of_nonneg h0max
  have hwd : w < c.depthN := by
    have h := hmaxlt
    rw [← hwi] at h
    exact_mod_cast h
  have hwndw_t : ∀ k : Nat, k ≤ w → c.wndw k = true := by
    intro k hk
    unfold GridColumn.wndw
    rw [h0]
    simp only [decide_eq_true_eq]
    refine ⟨by positivity, ?_⟩
    rw [← hwi]
    exact_mod_cast hk
  have hwndw_f : ∀ k : Nat, w < k → c.wndw k = false := by
    intro k hk
    unfold GridColumn.wndw
    rw [h0]
    simp only [decide_eq_false_iff_not, not_and]
    intro _
    rw [← hwi]
    intro hc
    have : k ≤ w := by exact_mod_cast hc
    omega
  have hszm : ∀ k : Nat, k ≤ w → c.szm k = c.s_z k := by
    intro k hk
    rw [GridColumn.szm, hwndw_t k hk, if_pos rfl]
  have hzzm : ∀ k : Nat, k ≤ w → c.zzm k = c.z_zt k := by
    intro k hk
    rw [GridColumn.zzm, hwndw_t k hk, if_pos rfl]
  have hszmF : ∀ k : Nat, w < k → c.szm k = valmask := by
    intro k hk
    rw [GridColumn.szm, hwndw_f k hk]
    simp
  have hzzmF : ∀ k : Nat, w < k → c.zzm k = valmask := by
    intro k hk
    rw [GridColumn.zzm, hwndw_f k hk]
    simp
  have hnid0 : nidx c.depthN 0 = 0 := by
    unfold nidx
    simp
  have hnidw : nidx c.depthN c.i_maxF = w := by
    unfold nidx
    rw [Int.emod_eq_of_lt h0max hmaxlt]
  have hszmin : c.szmin = c.s_z 0 := by
    rw [GridColumn.szmin, if_pos hnm, h0, hnid0]
  have hszmax : c.szmax = c.s_z w := by
    rw [GridColumn.szmax, if_pos hnm, hnidw]
  have hchain_x : List.Chain' (fun p q => p.1 ≤ q.1) c.ptsDZ := by
    unfold GridColumn.ptsDZ
    apply chain'_range_map
    intro k hk
    dsimp only
    by_cases h1 : k + 1 ≤ w
    · rw [hszm k (by omega), hszm (k+1) h1]
      refine le_of_lt (hmono k (k+1) (by omega) ?_)
      rw [← hwi]
      exact_mod_cast h1
    · by_cases h2 : k ≤ w
      · rw [hszm k h2, hszmF (k+1) (by omega)]
        refine le_of_lt (hsv k ?_)
        rw [← hwi]
        exact_mod_cast h2
      · rw [hszmF k (by omega), hszmF (k+1) (by omega)]
  have hchain_y : List.Chain' (fun p q => p.2 ≤ q.2) c.ptsDZ := by
    unfold GridColumn.ptsDZ
    apply chain'_range_map
    intro k hk
    dsimp only
    by_cases h1 : k + 1 ≤ w
    · rw [hzzm k (by omega), hzzm (k+1) h1]
      refine hzmono k (k+1) (by omega) ?_
      rw [← hwi]
      exact_mod_cast h1
    · by_cases h2 : k ≤ w
      · rw [hzzm k h2, hzzmF (k+1) (by omega)]
        refine le_trans (le_trans (hzbot k ?_) hbv) (le_refl _)
        rw [← hwi]
        exact_mod_cast h2
      · rw [hzzmF k (by omega), hzzmF (k+1) (by omega)]
  have hr : ∀ q ∈ c.ptsDZ, q.2 ≤ valmask := by
    unfold GridColumn.ptsDZ
    intro q hq
    rcases List.mem_map.mp hq with ⟨k, _, hfk⟩
    rw [← hfk]
    dsimp only
    by_cases h2 : k ≤ w
    · rw [hzzm k h2]
      refine le_trans (hzbot k ?_) hbv
      rw [← hwi]
      exact_mod_cast h2
    · rw [hzzmF k (by omega)]
  have hpos : ∀ q ∈ c.ptsDZ, 0 ≤ q.2 := by
    unfold GridColumn.ptsDZ
    intro q hq
    rcases List.mem_map.mp hq with ⟨k, _, hfk⟩
    rw [← hfk]
    dsimp only
    by_cases h2 : k ≤ w
    · rw [hzzm k h2]
      refine le_trans hz0 (hzmono 0 k (Nat.zero_le k) ?_)
      rw [← hwi]
      exact_mod_cast h2
    · rw [hzzmF k (by omega)]
      unfold valmask
      positivity
  have hnode : interp (c.s_z w) c.ptsDZ valmask = c.z_zt w := by
    have hpre : ∀ k, k < w →
        ((fun k => (c.szm k, c.zzm k)) k).1 < ((fun k => (c.szm k, c.zzm k)) w).1 := by
      intro k hk
      dsimp only
      rw [hszm k (by omega), hszm w le_rfl]
      exact hmono k w hk (le_of_eq hwi)
    have hpost : ∀ k, w < k → k < c.depthN →
        ((fun k => (c.szm k, c.zzm k)) w).1 ≤ ((fun k => (c.szm k, c.zzm k)) k).1 := by
      intro k hk1 _
      dsimp only
      rw [hszm w le_rfl, hszmF k hk1]
      exact le_of_lt (hsv w (le_of_eq hwi))
    have h := interp_range_map_node (fun k => (c.szm k, c.zzm k)) c.depthN w hwd
      valmask hpre hpost
    dsimp only at h
    rw [hszm w le_rfl, hzzm w le_rfl] at h
    rw [GridColumn.ptsDZ]
    exact h
  have hval_ub : ∀ x : ℚ, x ≤ c.szmax → interp x c.ptsDZ valmask ≤ c.botDepth := by
    intro x hx
    rw [hszmax] at hx
    have hm := interp_mono valmask x (c.s_z w) hx c.ptsDZ hchain_x hchain_y hr
    rw [hnode] at hm
    exact le_trans hm (hzbot w (le_of_eq hwi))
  have hval_lb : ∀ x : ℚ, 0 ≤ interp x c.ptsDZ valmask := by
    intro x
    exact interp_nonneg valmask x c.ptsDZ hchain_x hchain_y hr hpos
  have hrawN : c.zsRaw s_s s_s.length = c.botDepth := by
    rw [GridColumn.zsRaw, if_pos hnm, if_neg (lt_irrefl _), if_pos rfl]
  have hpinN : c.zsPin s_s s_s.length = c.botDepth := by
    rw [GridColumn.zsPin, if_neg (lt_irrefl _)]
    exact hrawN
  have hmid : ∀ p : Nat, p < s_s.length → ¬ c.szmax < s_s.getD p 0 →
      ¬ s_s.getD p 0 < c.szmin →
      c.zsPin s_s p = interp (s_s.getD p 0) c.ptsDZ valmask := by
    intro p hp hH hL
    rw [GridColumn.zsPin, if_pos hp, if_neg hH, if_neg hL, GridColumn.zsRaw,
      if_pos hnm, if_pos hp]
  have hub_all : ∀ p : Nat, p ≤ s_s.length → c.zsPin s_s p ≤ c.botDepth := by
    intro p hp
    rcases eq_or_lt_of_le hp with he | hlt
    · rw [he, hpinN]
    · by_cases hH : c.szmax < s_s.getD p 0
      · rw [GridColumn.zsPin, if_pos hlt, if_pos hH, hrawN]
      · by_cases hL : s_s.getD p 0 < c.szmin
        · rw [GridColumn.zsPin, if_pos hlt, if_neg hH, if_pos hL]
          exact hbd0
        · rw [hmid p hlt hH hL]
          exact hval_ub _ (not_lt.mp hH)
  have hlb_all : ∀ p : Nat, p ≤ s_s.length → 0 ≤ c.zsPin s_s p := by
    intro p hp
    rcases eq_or_lt_of_le hp with he | hlt
    · rw [he, hpinN]
      exact hbd0
    · by_cases hH : c.szmax < s_s.getD p 0
      · rw [GridColumn.zsPin, if_pos hlt, if_pos hH, hrawN]
        exact hbd0
      · by_cases hL : s_s.getD p 0 < c.szmin
        · rw [GridColumn.zsPin, if_pos hlt, if_neg hH, if_pos hL]
        · rw [hmid p hlt hH hL]
          exact hval_lb _
  intro n m hnlem hm
  rcases eq_or_lt_of_le hm with hmeq | hmlt
  · rw [hmeq, hpinN]
    exact hub_all n (by omega)
  · have hn : n < s_s.length := by omega
    by_cases hHn : c.szmax < s_s.getD n 0
    · have hHm : c.szmax < s_s.getD m 0 := lt_of_lt_of_le hHn (hss n m hnlem hmlt)
      rw [GridColumn.zsPin, if_pos hn, if_pos hHn, hrawN]
      conv_rhs => rw [GridColumn.zsPin]
      rw [if_pos hmlt, if_pos hHm, hrawN]
    · by_cases hLn : s_s.getD n 0 < c.szmin
      · rw [GridColumn.zsPin, if_pos hn, if_neg hHn, if_pos hLn]
        exact hlb_all m (by omega)
      · rw [hmid n hn hHn hLn]
        by_cases hHm : c.szmax < s_s.getD m 0
        · conv_rhs => rw [GridColumn.zsPin]
          rw [if_pos hmlt, if_pos hHm, hrawN]
          exact hval_ub _ (not_lt.mp hHn)
        · by_cases hLm : s_s.getD m 0 < c.szmin
          · exact absurd (lt_of_le_of_lt (hss n m hnlem hmlt) hLm) hLn
          · rw [hmid m hmlt hHm hLm]
            exact interp_mono valmask _ _ (hss n m hnlem hmlt) c.ptsDZ
              hchain_x hchain_y hr

/-- The C9 counterexample column: fully valid (no masked cell), density
strictly increasing with depth. -/
def c9col : GridColumn :=
  ⟨3,
    fun k => if k = 0 then 24 else if k = 1 then 25 else 26,
    fun _ => 10,
    fun _ => 35,
    fun _ => false,
    fun k => if k = 0 then 10 else if k = 1 then 20 else 30,
    fun k => if k = 0 then 0 else if k = 1 then 15 else 25⟩

/-- C9 counterexample: this fully-valid column has a strictly increasing
density profile, yet the remapped depth sequence decreases from 15 to 0:
with no masked cell `vmask.argmax` is 0, so `i_bottom = -1` and the bottom
sentinel depth is `z_zw[0] = 0`; the level denser than `szmax` is pinned to
that 0 after an interpolated depth of 15. -/
theorem remapped_depths_not_monotone :
    (∀ k l : Nat, k < l → l < c9col.depthN → c9col.s_z k < c9col.s_z l) ∧
    c9col.nomask = true ∧
    c9col.zsPin [49/2, 26] 0 = 15 ∧ c9col.zsPin [49/2, 26] 1 = 0 ∧
    ¬ (c9col.zsPin [49/2, 26] 0 ≤ c9col.zsPin [49/2, 26] 1) := by
  have hnm : c9col.nomask = true := by
    rw [GridColumn.nomask]
    norm_num [c9col]
  have hdN : c9col.depthN = 3 := rfl
  have hfs : firstSat c9col.vmask c9col.depthN = 3 := by
    norm_num [firstSat, firstSatAux, c9col]
  have hbot : c9col.i_bottom = -1 := by
    rw [GridColumn.i_bottom, npArgmaxBool, hfs, hdN]
    norm_num
  have hbd : c9col.botDepth = 0 := by
    rw [GridColumn.botDepth, npArgmaxBool, hfs, hdN]
    norm_num [c9col]
  have hlist : c9col.szList = [24, 25, 26] := by
    rw [GridColumn.szList, hdN]
    norm_num [c9col, List.range_succ]
  have hmin0 : c9col.i_min0 = 0 := by
    rw [GridColumn.i_min0, if_pos hnm, hlist]
    norm_num [argminIdx]
  have hmax0 : c9col.i_max0 = 1 := by
    rw [GridColumn.i_max0, if_pos hnm, hlist]
    norm_num [argmaxIdx]
  have hmin1 : c9col.i_min1 = 0 := by
    rw [GridColumn.i_min1, hmin0, hmax0, if_neg (by norm_num)]
  have hdr : c9col.delta_rho = 2 := by
    rw [GridColumn.delta_rho, if_pos hnm, hbot, hdN]
    norm_num [nidx, c9col, show (((-1:Int) % 3).toNat = 2) from rfl,
      show ((2:Int).toNat = 2) from rfl]
  have hminF : c9col.i_minF = 0 := by
    rw [GridColumn.i_minF, hdr, hmin1, if_neg (by norm_num [del_s1])]
  have hmaxF : c9col.i_maxF = 1 := by
    rw [GridColumn.i_maxF, hdr, hmax0, if_neg (by norm_num [del_s1])]
  have hszmin : c9col.szmin = 24 := by
    rw [GridColumn.szmin, if_pos hnm, hminF, hdN]
    norm_num [nidx, c9col, show ((0:Int).toNat = 0) from rfl]
  have hszmax : c9col.szmax = 25 := by
    rw [GridColumn.szmax, if_pos hnm, hmaxF, hdN]
    norm_num [nidx, c9col, show ((1:Int).toNat = 1) from rfl]
  have hw0 : c9col.wndw 0 = true := by
    rw [GridColumn.wndw, hminF, hmaxF]
    decide
  have hw1 : c9col.wndw 1 = true := by
    rw [GridColumn.wndw, hminF, hmaxF]
    decide
  have hw2 : c9col.wndw 2 = false := by
    rw [GridColumn.wndw, hminF, hmaxF]
    decide
  have hszm0 : c9col.szm 0 = 24 := by
    rw [GridColumn.szm, hw0, if_pos rfl]
    norm_num [c9col]
  have hszm1 : c9col.szm 1 = 25 := by
    rw [GridColumn.szm, hw1, if_pos rfl]
    norm_num [c9col]
  have hszm2 : c9col.szm 2 = valmask := by
    rw [GridColumn.szm, hw2]
    simp
  have hzzm0 : c9col.zzm 0 = 10 := by
    rw [GridColumn.zzm, hw0, if_pos rfl]
    norm_num [c9col]
  have hzzm1 : c9col.zzm 1 = 20 := by
    rw [GridColumn.zzm, hw1, if_pos rfl]
    norm_num [c9col]
  have hzzm2 : c9col.zzm 2 = valmask := by
    rw [GridColumn.zzm, hw2]
    simp
  have hpts : c9col.ptsDZ = [(24, 10), (25, 20), (valmask, valmask)] := by
    rw [GridColumn.ptsDZ, hdN]
    simp [List.range_succ, hszm0, hszm1, hszm2, hzzm0, hzzm1, hzzm2]
  have hz0 : c9col.zsPin [49/2, 26] 0 = 15 := by
    rw [GridColumn.zsPin, if_pos (by norm_num),
      if_neg (by rw [hszmax]; norm_num),
      if_neg (by rw [hszmin]; norm_num),
      GridColumn.zsRaw, if_pos hnm, if_pos (by norm_num), hpts]
    show interp (49/2) _ valmask = 15
    simp only [interp, interpGo]
    rw [if_neg (by norm_num [valmask]), if_pos (by norm_num)]
    norm_num
  have hz1 : c9col.zsPin [49/2, 26] 1 = 0 := by
    rw [GridColumn.zsPin, if_pos (by norm_num),
      if_pos (by rw [hszmax]; norm_num),
      GridColumn.zsRaw, if_pos hnm]
    show (if (2:Nat) < 2 then _ else if (2:Nat) = 2 then c9col.botDepth else valmask) = 0
    rw [if_neg (by norm_num), if_pos rfl, hbd]
  refine ⟨?_, hnm, hz0, hz1, ?_⟩
  · intro k l hkl hl
    have hl3 : l < 3 := hl
    interval_cases l <;> interval_cases k <;> norm_num [c9col]
  · rw [hz0, hz1]
    norm_num

/-- The C9 witness column: bottom at level 1, garbage density below it
still increasing, so the extracted window is `[0, 1]` with sentinel depth
`z_zw[2] = 25` above the window's depth samples. -/
def c9colW : GridColumn :=
  ⟨3,
    fun k => if k = 0 then 24 else if k = 1 then 25 else 26,
    fun _ => 10,
    fun _ => 35,
    fun k => decide (2 ≤ k),
    fun k => if k = 0 then 10 else if k = 1 then 20 else 30,
    fun k => if k = 0 then 0 else if k = 1 then 15 else 25⟩

theorem remapped_depths_monotone_witness :
    c9colW.nomask = true ∧
    c9colW.zsPin [49/2, 26] 0 ≤ c9colW.zsPin [49/2, 26] 1 := by
  have hnm : c9colW.nomask = true := by
    rw [GridColumn.nomask]
    norm_num [c9colW]
  have hdN : c9colW.depthN = 3 := rfl
  have hfs : firstSat c9colW.vmask c9colW.depthN = 2 := by
    norm_num [firstSat, firstSatAux, c9colW]
  have hbot : c9colW.i_bottom = 1 := by
    rw [GridColumn.i_bottom, npArgmaxBool, hfs, hdN]
    norm_num
  have hbd : c9colW.botDepth = 25 := by
    rw [GridColumn.botDepth, npArgmaxBool, hfs, hdN]
    norm_num [c9colW]
  have hlist : c9colW.szList = [24, 25, 26] := by
    rw [GridColumn.szList, hdN]
    norm_num [c9colW, List.range_succ]
  have hmin0 : c9colW.i_min0 = 0 := by
    rw [GridColumn.i_min0, if_pos hnm, hlist]
    norm_num [argminIdx]
  have hmax0 : c9colW.i_max0 = 1 := by
    rw [GridColumn.i_max0, if_pos hnm, hlist]
    norm_num [argmaxIdx]
  have hmin1 : c9colW.i_min1 = 0 := by
    rw [GridColumn.i_min1, hmin0, hmax0, if_neg (by norm_num)]
  have hdr : c9colW.delta_rho = 1 := by
    rw [GridColumn.delta_rho, if_pos hnm, hbot, hdN]
    norm_num [nidx, c9colW, show ((1:Int).toNat = 1) from rfl]
  have hminF : c9colW.i_minF = 0 := by
    rw [GridColumn.i_minF, hdr, hmin1, if_neg (by norm_num [del_s1])]
  have hmaxF : c9colW.i_maxF = 1 := by
    rw [GridColumn.i_maxF, hdr, hmax0, if_neg (by norm_num [del_s1])]
  refine ⟨hnm, ?_⟩
  refine remapped_depths_monotone c9colW [49/2, 26] hnm hminF
    (by rw [hmaxF]; norm_num)
    (by rw [hmaxF, hdN]; norm_num)
    ?_ ?_ (by norm_num [c9colW]) ?_ ?_
    (by rw [hbd]; norm_num)
    (by rw [hbd]; norm_num [valmask])
    ?_ 0 1 (by norm_num) (by norm_num)
  · intro k l hkl hl
    rw [hmaxF] at hl
    have hl1 : l ≤ 1 := by exact_mod_cast hl
    have hk0 : k = 0 := by omega
    have hl1' : l = 1 := by omega
    rw [hk0, hl1']
    norm_num [c9colW]
  · intro k l hkl hl
    rw [hmaxF] at hl
    have hl1 : l ≤ 1 := by exact_mod_cast hl
    interval_cases l <;> interval_cases k <;> norm_num [c9colW]
  · intro k hk
    rw [hmaxF] at hk
    have hk1 : k ≤ 1 := by exact_mod_cast hk
    rw [hbd]
    interval_cases k <;> norm_num [c9colW]
  · intro k hk
    rw [hmaxF] at hk
    have hk1 : k ≤ 1 := by exact_mod_cast hk
    interval_cases k <;> norm_num [c9colW, valmask]
  · intro n m hnm' hml
    have hm2 : m < 2 := hml
    interval_cases m <;> interval_cases n <;> norm_num

end DensityBining
